import Mathlib

/-!
# Chip8Emulator: the interpreter cycle of `Chip8.cpp`

A shallow embedding of `Chip8::emulateCycle` (src/Chip8.cpp, lines 107-559),
`Chip8::initChip8` (lines 8-35) and `Chip8::load` (lines 38-92) over the fields of
`class Chip8` (src/Chip8.hpp, lines 13-50).

* `uint8_t` / `uint16_t` fields are natural numbers; every assignment that truncates in
  C++ carries an explicit `% 256` or `% 65536`.
* The arrays `memory[4096]`, `stack[16]`, `display[64*32]` and `keypad[16]` are functions
  on indices.  An access through `rd` / `wr` checks the index against the declared array
  length: the cycle returns `none` as soon as it would index outside an array (undefined
  behaviour in C++), and `some s` with the resulting machine state otherwise.
* `std::random_device` is an input of the cycle (`randNum`, the value `engine()` returns).
* The outcome of `fopen`, `malloc` and `fread` is an input of `load`.
-/

namespace Chip8Emu

/-- The data members of `class Chip8` (Chip8.hpp lines 16-47). -/
structure Chip8 where
  currentOp : Nat
  memory : Nat → Nat
  V : Nat → Nat
  I : Nat
  delay_timer : Nat
  sound_timer : Nat
  pc : Nat
  stack : Nat → Nat
  sp : Nat
  display : Nat → Bool
  drawFlag : Bool
  keypad : Nat → Bool

/-- The ranges that the C++ field types impose on a machine state: bytes below 256,
16-bit words below 65536. -/
structure Chip8.WF (s : Chip8) : Prop where
  currentOp_lt : s.currentOp < 65536
  memory_lt : ∀ i, s.memory i < 256
  V_lt : ∀ i, s.V i < 256
  I_lt : s.I < 65536
  delay_lt : s.delay_timer < 256
  sound_lt : s.sound_timer < 256
  pc_lt : s.pc < 65536
  stack_lt : ∀ i, s.stack i < 65536
  sp_lt : s.sp < 256

/-- Read `a[i]` of an array declared with `size` elements. -/
def rd {α : Type} (size : Nat) (a : Nat → α) (i : Nat) : Option α :=
  if i < size then some (a i) else none

/-- Write `a[i] = v` into an array declared with `size` elements. -/
def wr {α : Type} (size : Nat) (a : Nat → α) (i : Nat) (v : α) : Option (Nat → α) :=
  if i < size then some (Function.update a i v) else none

/-- The value of `a - b` (computed in `int`) once stored in a `uint16_t`. -/
def sub16 (a b : Nat) : Nat := (a + 65536 - b % 65536) % 65536

/-- The loop `for (int i = 0; i < n; i++) body(i)` on a state that the body may fail on. -/
def forLoop {σ : Type} (body : Nat → σ → Option σ) : Nat → σ → Option σ
  | 0, st => some st
  | n + 1, st => (forLoop body n st).bind (body n)

/-- How control leaves the decode switch: `next` through a `break` (the code after the
switch runs), `ret` through the `return` of the key wait. -/
inductive Flow where
  | next (s : Chip8)
  | ret (s : Chip8)

/-- `V[i] = v` for a register index `i`; every index the cycle uses is a nibble of the
opcode or the constant `0xF`. -/
def setV (s : Chip8) (i v : Nat) : Chip8 := { s with V := Function.update s.V i v }

/-- Field `x` of the opcode, `(currentOp & 0x0F00) >> 8`. -/
def regXof (op : Nat) : Nat := (op &&& 0x0F00) >>> 8

/-- Field `y` of the opcode, `(currentOp & 0x00F0) >> 4`. -/
def regYof (op : Nat) : Nat := (op &&& 0x00F0) >>> 4

/-- Opcodes beginning with 0 (lines 129-160). -/
def case0 (s : Chip8) : Option Flow :=
  let op := s.currentOp
  if op &&& 0x00FF = 0x00EE then
    (rd 16 s.stack s.sp).bind fun top =>
      some (Flow.next { s with pc := top, sp := (s.sp + 255) % 256 })
  else if op &&& 0x00FF = 0x00E0 then
    some (Flow.next { s with display := fun _ => false, drawFlag := true })
  else
    some (Flow.next s)

/-- Opcode 2nnn (lines 173-179). -/
def case2 (s : Chip8) : Option Flow :=
  let sp1 := (s.sp + 1) % 256
  (wr 16 s.stack sp1 s.pc).bind fun stack1 =>
    some (Flow.next { s with sp := sp1, stack := stack1, pc := s.currentOp &&& 0x0FFF })

/-- Opcodes 8xy_ (lines 230-328). -/
def case8 (s : Chip8) : Chip8 :=
  let op := s.currentOp
  let regX := regXof op
  let regY := regYof op
  let sel := op &&& 0x000F
  if sel = 0x0000 then setV s regX (s.V regY)
  else if sel = 0x0001 then setV s regX (s.V regX ||| s.V regY)
  else if sel = 0x0002 then setV s regX (s.V regX &&& s.V regY)
  else if sel = 0x0003 then setV s regX (s.V regX ^^^ s.V regY)
  else if sel = 0x0004 then
    let result := (s.V regX + s.V regY) % 65536
    let s1 := setV s regX (result % 256)
    if result > 255 then setV s1 0xF 1 else s1
  else if sel = 0x0005 then
    let s1 := if s.V regX ≥ s.V regY then setV s 0xF 1 else s
    let result := sub16 (s1.V regX) (s1.V regY)
    setV s1 regX (result % 256)
  else if sel = 0x0006 then
    let s1 := if s.V regX &&& 0x1 ≠ 0 then setV s 0xF 1 else s
    setV s1 regX (s1.V regX / 2)
  else if sel = 0x0007 then
    let s1 := if s.V regY ≥ s.V regX then setV s 0xF 1 else s
    let result := sub16 (s1.V regY) (s1.V regX)
    setV s1 regX (result % 256)
  else if sel = 0x000E then
    let s1 := if s.V regX &&& 0x80 ≠ 0 then setV s 0xF 1 else s
    setV s1 regX ((s1.V regX * 2) % 256)
  else s

/-- The body of the inner loop of Dxyn (lines 389-397) for one `pixel` of the sprite
byte `row` read for line `byte`. -/
def drawPixel (row X Y byte pixel : Nat) (s : Chip8) : Option Chip8 :=
  if row &&& (0x80 >>> pixel) ≠ 0 then
    let idx := X + pixel + ((Y + byte) * 64)
    (rd 2048 s.display idx).bind fun lit =>
      let s1 := if lit = true then setV s 0xF 1 else s
      (wr 2048 s1.display idx (!lit)).bind fun display1 =>
        some { s1 with display := display1 }
  else some s

/-- The body of the outer loop of Dxyn (lines 382-398) for sprite line `byte`. -/
def drawRow (X Y : Nat) (byte : Nat) (s : Chip8) : Option Chip8 :=
  (rd 4096 s.memory (s.I + byte)).bind fun row =>
    forLoop (drawPixel row X Y byte) 8 s

/-- Opcode Dxyn (lines 370-403). -/
def caseD (s : Chip8) : Option Flow :=
  let op := s.currentOp
  let X := s.V (regXof op)
  let Y := s.V (regYof op)
  let spriteHeight := (op &&& 0x000F) % 256
  let s1 := setV s 0xF 0
  (forLoop (drawRow X Y) spriteHeight s1).bind fun s2 =>
    some (Flow.next { s2 with drawFlag := true })

/-- Opcodes Exxx (lines 406-434). -/
def caseE (s : Chip8) : Option Flow :=
  let op := s.currentOp
  let regX := regXof op
  if op &&& 0x00FF = 0x009E then
    (rd 16 s.keypad (s.V regX)).bind fun key =>
      some (Flow.next (if key = true then { s with pc := (s.pc + 2) % 65536 } else s))
  else if op &&& 0x00FF = 0x00A1 then
    (rd 16 s.keypad (s.V regX)).bind fun key =>
      some (Flow.next (if key = false then { s with pc := (s.pc + 2) % 65536 } else s))
  else some (Flow.next s)

/-- The body of the keypad scan of Fx0A (lines 456-460): the pair is `keyFlag` and the
machine state. -/
def keyScan (regX i : Nat) (st : Bool × Chip8) : Option (Bool × Chip8) :=
  if st.2.keypad i ≠ false then some (true, setV st.2 regX (i % 256)) else some st

/-- The body of the loop of Fx55 (line 511). -/
def storeReg (i : Nat) (s : Chip8) : Option Chip8 :=
  (wr 4096 s.memory (s.I + i) (s.V i)).bind fun memory1 =>
    some { s with memory := memory1 }

/-- The body of the loop of Fx65 (line 524). -/
def loadReg (i : Nat) (s : Chip8) : Option Chip8 :=
  (rd 4096 s.memory (s.I + i)).bind fun b => some (setV s i b)

/-- Opcodes Fxxx (lines 436-540).  Case `0x0A` has no `break`: when a key is pressed it
runs on into case `0x15`. -/
def caseF (s : Chip8) : Option Flow :=
  let op := s.currentOp
  let regX := regXof op
  let sel := op &&& 0x00FF
  if sel = 0x07 then some (Flow.next (setV s regX s.delay_timer))
  else if sel = 0x0A then
    (forLoop (keyScan regX) 16 (false, s)).bind fun st =>
      if st.1 = false then some (Flow.ret st.2)
      else some (Flow.next { st.2 with delay_timer := st.2.V regX })
  else if sel = 0x15 then some (Flow.next { s with delay_timer := s.V regX })
  else if sel = 0x18 then some (Flow.next { s with sound_timer := s.V regX })
  else if sel = 0x1E then some (Flow.next { s with I := (s.I + s.V regX) % 65536 })
  else if sel = 0x29 then some (Flow.next { s with I := (s.V regX * 0x5) % 65536 })
  else if sel = 0x33 then
    (wr 4096 s.memory s.I ((s.V regX / 100) % 256)).bind fun m1 =>
    (wr 4096 m1 (s.I + 1) (((s.V regX / 10) % 10) % 256)).bind fun m2 =>
    (wr 4096 m2 (s.I + 2) ((s.V regX % 10) % 256)).bind fun m3 =>
      some (Flow.next { s with memory := m3 })
  else if sel = 0x55 then
    (forLoop storeReg regX s).bind fun s1 =>
      some (Flow.next { s1 with I := (s1.I + (s1.I + regX + 1)) % 65536 })
  else if sel = 0x65 then
    (forLoop loadReg regX s).bind fun s1 =>
      some (Flow.next { s1 with I := (s1.I + (s1.I + regX + 1)) % 65536 })
  else some (Flow.next s)

/-- The decode switch on the first nibble (lines 126-547), entered with `currentOp`
already fetched; `randNum` is the value `engine()` yields in case Cxkk. -/
def execute (s : Chip8) (randNum : Nat) : Option Flow :=
  let op := s.currentOp
  let sel := op &&& 0xF000
  if sel = 0x0000 then case0 s
  else if sel = 0x1000 then
    let s1 := { s with pc := op &&& 0x0FFF }
    some (Flow.next { s1 with pc := sub16 s1.pc 2 })
  else if sel = 0x2000 then case2 s
  else if sel = 0x3000 then
    let kk := (op &&& 0x00FF) % 256
    let reg := regXof op
    some (Flow.next (if s.V reg = kk then { s with pc := (s.pc + 2) % 65536 } else s))
  else if sel = 0x4000 then
    let kk := (op &&& 0x00FF) % 256
    let reg := regXof op
    some (Flow.next (if s.V reg ≠ kk then { s with pc := (s.pc + 2) % 65536 } else s))
  else if sel = 0x5000 then
    let regX := regXof op
    let regY := regYof op
    some (Flow.next (if s.V regX = s.V regY then { s with pc := (s.pc + 2) % 65536 } else s))
  else if sel = 0x6000 then
    let kk := (op &&& 0x00FF) % 256
    some (Flow.next (setV s (regXof op) kk))
  else if sel = 0x7000 then
    let kk := (op &&& 0x00FF) % 256
    let reg := regXof op
    some (Flow.next (setV s reg ((s.V reg + kk) % 256)))
  else if sel = 0x8000 then some (Flow.next (case8 s))
  else if sel = 0x9000 then
    let regX := regXof op
    let regY := regYof op
    some (Flow.next (if s.V regX ≠ s.V regY then { s with pc := (s.pc + 2) % 65536 } else s))
  else if sel = 0xA000 then some (Flow.next { s with I := op &&& 0x0FFF })
  else if sel = 0xB000 then
    let s1 := { s with pc := ((op &&& 0x0FFF) + s.V 0) % 65536 }
    some (Flow.next { s1 with pc := sub16 s1.pc 2 })
  else if sel = 0xC000 then
    let regX := (op &&& 0x0F00) % 256
    let kk := (op &&& 0x00FF) % 256
    some (Flow.next (setV s regX ((randNum % 256) &&& kk)))
  else if sel = 0xD000 then caseD s
  else if sel = 0xE000 then caseE s
  else if sel = 0xF000 then caseF s
  else some (Flow.next s)

/-- The code after the switch (lines 549-557): `pc += 2`, then the two timers. -/
def afterSwitch (s : Chip8) : Chip8 :=
  let s1 := { s with pc := (s.pc + 2) % 65536 }
  let s2 := if s1.delay_timer > 0 then { s1 with delay_timer := s1.delay_timer - 1 } else s1
  if s2.sound_timer > 0 then { s2 with sound_timer := s2.sound_timer - 1 } else s2

/-- The fetch (lines 118-120): clears `drawFlag` and assembles `currentOp` from the two
bytes at `pc`. -/
def fetch (s : Chip8) : Option Chip8 :=
  (rd 4096 s.memory s.pc).bind fun hi =>
  (rd 4096 s.memory (s.pc + 1)).bind fun lo =>
    some { s with drawFlag := false, currentOp := ((hi <<< 8) ||| lo) % 65536 }

/-- The value `currentOp` receives in the fetch: `memory[pc] << 8 | memory[pc+1]` stored
in a `uint16_t`. -/
def opAt (s : Chip8) : Nat := ((s.memory s.pc <<< 8) ||| s.memory (s.pc + 1)) % 65536

/-- The machine state on entry to the switch when both fetched bytes lie inside
`memory`. -/
def fetched (s : Chip8) : Chip8 := { s with drawFlag := false, currentOp := opAt s }

/-- One call of `Chip8::emulateCycle` (lines 107-559). -/
def emulateCycle (s : Chip8) (randNum : Nat) : Option Chip8 :=
  (fetch s).bind fun s0 =>
  (execute s0 randNum).bind fun flow =>
    match flow with
    | Flow.next s1 => some (afterSwitch s1)
    | Flow.ret s1 => some s1

/-- A machine state with every field zero except `pc = 0x200`, the given program bytes
from address `0x200` on, and the given registers. -/
def bootWith (prog : List Nat) (regs : Nat → Nat) : Chip8 :=
  { currentOp := 0
    memory := fun i => if 0x200 ≤ i then prog.getD (i - 0x200) 0 else 0
    V := regs
    I := 0
    delay_timer := 0
    sound_timer := 0
    pc := 0x200
    stack := fun _ => 0
    sp := 0
    display := fun _ => false
    drawFlag := false
    keypad := fun _ => false }

/-- Registers with `V[0] = a`, `V[1] = b`, `V[0xF] = f` and zero elsewhere. -/
def regs3 (a b f : Nat) : Nat → Nat :=
  fun i => if i = 0 then a else if i = 1 then b else if i = 0xF then f else 0

/-- Registers with `V[0] = a`, `V[1] = b` and zero elsewhere. -/
def regs2 (a b : Nat) : Nat → Nat := regs3 a b 0

/-- Scenario 1 of the specification: `12 04 00 00 60 07` at `0x200`. -/
def jumpState : Chip8 := bootWith [0x12, 0x04, 0x00, 0x00, 0x60, 0x07] (fun _ => 0)

/-- Opcode `F033` at `0x200` with `V[0] = 234` and `I = 0x300`. -/
def bcdState : Chip8 := { bootWith [0xF0, 0x33] (regs2 0xEA 0) with I := 0x300 }

/-- Scenario 2 of the specification: `8014` with `V[0] = 0xFF`, `V[1] = 0x01`. -/
def addCarryState : Chip8 := bootWith [0x80, 0x14] (regs3 0xFF 0x01 0)

/-- Opcode `8014` with `V[0] = 1`, `V[1] = 1` and `VF = 1` left by an earlier instruction. -/
def addStaleState : Chip8 := bootWith [0x80, 0x14] (regs3 0x01 0x01 1)

/-- Scenario 3 of the specification: `8015` with `V[0] = 0x05`, `V[1] = 0x03`. -/
def subState : Chip8 := bootWith [0x80, 0x15] (regs3 0x05 0x03 0)

/-- Opcode `8015` with `V[0] = 3`, `V[1] = 5` and `VF = 1` left by an earlier instruction. -/
def subStaleState : Chip8 := bootWith [0x80, 0x15] (regs3 0x03 0x05 1)

/-- Opcode `80F5` (`y = 0xF`) with `V[0] = 9` and `VF = 4`. -/
def subFlagOperandState : Chip8 := bootWith [0x80, 0xF5] (regs3 0x09 0x00 4)

/-- Opcodes `F155`, `F165` at `0x200` with `V[0] = 7`, `V[1] = 9` and `I = 0x300`. -/
def storeLoadState : Chip8 :=
  { bootWith [0xF1, 0x55, 0xF1, 0x65] (regs2 7 9) with I := 0x300 }

/-- Scenario 4 of the specification: `22 06` at `0x200`, `00 EE` at `0x206`, `SP = 0`. -/
def callState : Chip8 :=
  bootWith [0x22, 0x06, 0x00, 0x00, 0x00, 0x00, 0x00, 0xEE] (fun _ => 0)

/-- Opcode `F00A` at `0x200` with the given keypad. -/
def keysState (keys : Nat → Bool) : Chip8 :=
  { bootWith [0xF0, 0x0A] (fun _ => 0) with keypad := keys }

/-- Keypad with only key 5 pressed. -/
def key5 : Nat → Bool := fun i => decide (i = 5)

/-- Keypad with keys 3 and 5 pressed. -/
def keys35 : Nat → Bool := fun i => decide (i = 3) || decide (i = 5)

/-- Opcode `D011` at `0x200`, sprite byte `0xFF` at `I = 0x300`, `V[0] = vx`, `V[1] = vy`
and the framebuffer `lit`. -/
def drawState (vx vy : Nat) (lit : Nat → Bool) : Chip8 :=
  { bootWith [0xD0, 0x11] (regs2 vx vy) with
    I := 0x300
    memory := Function.update (bootWith [0xD0, 0x11] (regs2 vx vy)).memory 0x300 0xFF
    display := lit }

/-- Sprite at the origin over a framebuffer with pixel 3 lit. -/
def collisionState : Chip8 := drawState 0 0 (fun j => decide (j = 3))

/-- Sprite at column 60 of row 0 over a framebuffer whose only lit pixel is column 0 of
row 1 (index 64). -/
def clipState : Chip8 := drawState 60 0 (fun j => decide (j = 64))

/-- Sprite at column 60 of row 0 over an empty framebuffer. -/
def wrapState : Chip8 := drawState 60 0 (fun _ => false)

/-- The highest index below `n` whose key is pressed, if any. -/
def lastPressed (keypad : Nat → Bool) : Nat → Option Nat
  | 0 => none
  | n + 1 => if keypad n = true then some n else lastPressed keypad n

/-- The state `s` is `s0` after XOR-drawing the sprite bits selected by `P`: pixel
`X + b + (Y + r) * 64` is flipped for each selected `(r, b)`, `V[0xF]` is 1 when one of
them was lit in `s0`, and nothing else changed. -/
structure Drawn (X Y : Nat) (s0 s : Chip8) (P : Nat → Nat → Prop) : Prop where
  memory_eq : s.memory = s0.memory
  I_eq : s.I = s0.I
  pc_eq : s.pc = s0.pc
  sp_eq : s.sp = s0.sp
  stack_eq : s.stack = s0.stack
  delay_eq : s.delay_timer = s0.delay_timer
  sound_eq : s.sound_timer = s0.sound_timer
  keypad_eq : s.keypad = s0.keypad
  flips : ∀ j, s.display j ≠ s0.display j ↔ ∃ r b, P r b ∧ j = X + b + (Y + r) * 64
  regs : ∀ i, i ≠ 0xF → s.V i = s0.V i
  hit : (∃ r b, P r b ∧ s0.display (X + b + (Y + r) * 64) = true) → s.V 0xF = 1
  miss : (¬ ∃ r b, P r b ∧ s0.display (X + b + (Y + r) * 64) = true) → s.V 0xF = s0.V 0xF

/-- The machine state a `Flow` carries. -/
def Flow.state : Flow → Chip8
  | Flow.next s => s
  | Flow.ret s => s

/-- The table `chip8_fontset[80]` (Chip8.hpp lines 64-82). -/
def chip8_fontset : List Nat :=
  [0xF0, 0x90, 0x90, 0x90, 0xF0,
   0x20, 0x60, 0x20, 0x20, 0x70,
   0xF0, 0x10, 0xF0, 0x80, 0xF0,
   0xF0, 0x10, 0xF0, 0x10, 0xF0,
   0x90, 0x90, 0xF0, 0x10, 0x10,
   0xF0, 0x80, 0xF0, 0x10, 0xF0,
   0xF0, 0x80, 0xF0, 0x90, 0xF0,
   0xF0, 0x10, 0x20, 0x40, 0x40,
   0xF0, 0x90, 0xF0, 0x90, 0xF0,
   0xF0, 0x90, 0xF0, 0x10, 0xF0,
   0xF0, 0x90, 0xF0, 0x90, 0x90,
   0xE0, 0x90, 0xE0, 0x90, 0xE0,
   0xF0, 0x80, 0x80, 0x80, 0xF0,
   0xE0, 0x90, 0x90, 0x90, 0xE0,
   0xF0, 0x80, 0xF0, 0x80, 0xF0,
   0xF0, 0x80, 0xF0, 0x80, 0x80]

/-- The loop `for (int i = 0; i < n; i++) a[i] = v(i)`, whose bound never exceeds the
length of the array. -/
def fill {α : Type} (n : Nat) (v : Nat → α) (a : Nat → α) : Nat → α :=
  fun i => if i < n then v i else a i

/-- The function `Chip8::initChip8` (Chip8.cpp lines 8-35).  It assigns `pc`, `I`, the two
timers, `sp`, `stack`, `V`, `display` and `memory`; `currentOp`, `drawFlag` and `keypad`
are not assigned. -/
def initChip8 (s : Chip8) : Chip8 :=
  { s with
    pc := 0x200
    I := 0
    delay_timer := 0
    sound_timer := 0
    sp := 0
    stack := fill 16 (fun _ => 0) s.stack
    V := fill 16 (fun _ => 0) s.V
    display := fill (64 * 32) (fun _ => false) s.display
    memory := fill 80 (fun i => chip8_fontset.getD i 0) (fill 4096 (fun _ => 0) s.memory) }

/-- The body of the copy loop of `load` (line 77): `memory[i + 512] = (uint8_t)rom_buffer[i]`. -/
def copyRomByte (rom_buffer : List Nat) (i : Nat) (s : Chip8) : Option Chip8 :=
  (wr 4096 s.memory (i + 512) (rom_buffer.getD i 0 % 256)).bind fun memory1 =>
    some { s with memory := memory1 }

/-- The function `Chip8::load` (Chip8.cpp lines 38-92) against the outcome of its library
calls: `file` is `none` when `fopen` fails and the content of the file otherwise,
`mallocOk` tells whether `malloc` returned a buffer, `result` is what `fread` returns.
The value is the returned `bool` and the machine state. -/
def load (s : Chip8) (file : Option (List Nat)) (mallocOk : Bool) (result : Nat) :
    Option (Bool × Chip8) :=
  let s0 := initChip8 s
  match file with
  | none => some (false, s0)
  | some rom =>
    let rom_size := rom.length
    if mallocOk = false then some (false, s0)
    else if result ≠ rom_size then some (false, s0)
    else if rom_size < 3584 then
      (forLoop (copyRomByte rom) rom_size s0).bind fun s1 => some (true, s1)
    else some (false, s0)

/-- The opcode reaches one of the `default` labels of the decode switch (lines 153, 321,
427, 532), which only print "Invalid opcode.". -/
def fallsToDefault (op : Nat) : Prop :=
  (op &&& 0xF000 = 0x0000 ∧ op &&& 0x00FF ≠ 0x00EE ∧ op &&& 0x00FF ≠ 0x00E0) ∨
  (op &&& 0xF000 = 0x8000 ∧ 0x8 ≤ op &&& 0x000F ∧ op &&& 0x000F ≠ 0xE) ∨
  (op &&& 0xF000 = 0xE000 ∧ op &&& 0x00FF ≠ 0x9E ∧ op &&& 0x00FF ≠ 0xA1) ∨
  (op &&& 0xF000 = 0xF000 ∧ op &&& 0x00FF ≠ 0x07 ∧ op &&& 0x00FF ≠ 0x0A ∧
    op &&& 0x00FF ≠ 0x15 ∧ op &&& 0x00FF ≠ 0x18 ∧ op &&& 0x00FF ≠ 0x1E ∧
    op &&& 0x00FF ≠ 0x29 ∧ op &&& 0x00FF ≠ 0x33 ∧ op &&& 0x00FF ≠ 0x55 ∧
    op &&& 0x00FF ≠ 0x65)

/-- The opcode changes the program counter other than by the skip or the common `pc += 2`:
0nEE, 1nnn, 2nnn or Bnnn. -/
def transfersControl (op : Nat) : Prop :=
  (op &&& 0xF000 = 0x0000 ∧ op &&& 0x00FF = 0x00EE) ∨ op &&& 0xF000 = 0x1000 ∨
  op &&& 0xF000 = 0x2000 ∨ op &&& 0xF000 = 0xB000

/-- Opcode `0000` at `0x200`. -/
def invalidState : Chip8 := bootWith [0x00, 0x00] (fun _ => 0)

/-- Opcode `01E0` at `0x200` over a framebuffer with pixel 5 lit. -/
def looseClsState : Chip8 :=
  { bootWith [0x01, 0xE0] (fun _ => 0) with display := fun j => decide (j = 5) }

/-- Opcode `8128` at `0x200` with `V[1] = 7`, `V[0xF] = 1`, `I = 0x300`, `SP = 2` and a
lit framebuffer. -/
def unknownAluState : Chip8 :=
  { bootWith [0x81, 0x28] (regs3 0 7 1) with I := 0x300, sp := 2, display := fun _ => true }

/-- Opcode `00E0` at `0x200` over a fully lit framebuffer. -/
def clsState : Chip8 := { bootWith [0x00, 0xE0] (fun _ => 0) with display := fun _ => true }

/-- Opcode `D125` at `0x200` with `V[1] = 3`, `V[2] = 4`, `V[0xF] = 1`, `I = 0x300`, five
zero bytes of sprite and every even pixel lit. -/
def emptySpriteState : Chip8 :=
  { bootWith [0xD1, 0x25] (fun i => if i = 1 then 3 else if i = 2 then 4 else if i = 0xF then 1
      else 0) with
    I := 0x300
    display := fun j => decide (j % 2 = 0) }

/-- A machine on which a program has run: key 5 held, `drawFlag` set, registers, stack and
memory in use. -/
def usedState : Chip8 :=
  { currentOp := 0xD011
    memory := fun _ => 0xAA
    V := fun _ => 9
    I := 0x345
    delay_timer := 7
    sound_timer := 8
    pc := 0x2F0
    stack := fun _ => 0x222
    sp := 3
    display := fun _ => true
    drawFlag := true
    keypad := fun i => decide (i = 5) }

/-- Opcode `00EE` at `0x200` with an empty stack (`SP = 0`). -/
def retEmptyState : Chip8 := bootWith [0x00, 0xEE] (fun _ => 0)

/-- Opcode `2206` at `0x200` with `SP = 15`. -/
def callFullState : Chip8 := { bootWith [0x22, 0x06] (fun _ => 0) with sp := 15 }

/-- Opcode `00EE` at `0x200` with `SP = 15` and `stack[15] = 0x300`. -/
def retTopState : Chip8 :=
  { bootWith [0x00, 0xEE] (fun _ => 0) with
    sp := 15
    stack := fun i => if i = 15 then 0x300 else 0 }

/-- Opcode `6107` at `0x200` with `SP = 16`. -/
def loadAtFullState : Chip8 := { bootWith [0x61, 0x07] (fun _ => 0) with sp := 16 }

/-- Opcodes `AFFF`, `F033` at `0x200` with `V[0] = 234`, every other field as after a
reset. -/
def pastMemoryState : Chip8 := bootWith [0xAF, 0xFF, 0xF0, 0x33] (regs2 0xEA 0)

/-- Opcode `C1FF` at `0x200` with all registers zero. -/
def rndState : Chip8 := bootWith [0xC1, 0xFF] (fun _ => 0)

/-- Opcode `1201` at `0x200`. -/
def oddJumpState : Chip8 := bootWith [0x12, 0x01] (fun _ => 0)

/-- Opcode `3007` at `0x200` with `V[0] = 7`. -/
def skipState : Chip8 := bootWith [0x30, 0x07] (regs2 7 0)

/-- Opcode `F00A` at `0x200`, no key pressed, `delay_timer = 5`, `sound_timer = 3`. -/
def blockedState : Chip8 :=
  { bootWith [0xF0, 0x0A] (fun _ => 0) with delay_timer := 5, sound_timer := 3 }

/-- The state `t` has the program counter, stack pointer and stack of `s`. -/
def SameCtl (s t : Chip8) : Prop := t.pc = s.pc ∧ t.sp = s.sp ∧ t.stack = s.stack

/-- The state `t` has the stack pointer and stack of `s`, and its program counter is that
of `s` or two further (a skip). -/
def Plain (s t : Chip8) : Prop :=
  t.sp = s.sp ∧ t.stack = s.stack ∧ (t.pc = s.pc ∨ t.pc = (s.pc + 2) % 65536)

/-- The machine state `emulateCycle` ends with: the code after the switch runs on a
`break`, not on the `return` of the key wait. -/
def Flow.finish : Flow → Chip8
  | Flow.next s => afterSwitch s
  | Flow.ret s => s

/-- Opcode `F00A` at `0x200` with only key 5 pressed, `delay_timer = 9`, `sound_timer = 3`. -/
def keyWaitState : Chip8 := { keysState key5 with delay_timer := 9, sound_timer := 3 }

/-! ## Bit fields of the opcode -/

theorem and_field (op k j : Nat) :
    op &&& ((2 ^ j - 1) <<< k) = ((op >>> k) % 2 ^ j) <<< k := by
  apply Nat.eq_of_testBit_eq
  intro i
  simp only [Nat.testBit_and, Nat.testBit_shiftLeft, Nat.testBit_mod_two_pow,
    Nat.testBit_shiftRight, Nat.testBit_two_pow_sub_one]
  by_cases h : i ≥ k
  · have e : k + (i - k) = i := by omega
    simp [h, e, Bool.and_comm]
  · simp [h]

theorem and_F000 (op : Nat) : op &&& 0xF000 = op / 4096 % 16 * 4096 := by
  have h := and_field op 12 4
  simpa [Nat.shiftLeft_eq, Nat.shiftRight_eq_div_pow] using h

theorem and_0F00 (op : Nat) : op &&& 0x0F00 = op / 256 % 16 * 256 := by
  have h := and_field op 8 4
  simpa [Nat.shiftLeft_eq, Nat.shiftRight_eq_div_pow] using h

theorem and_00F0 (op : Nat) : op &&& 0x00F0 = op / 16 % 16 * 16 := by
  have h := and_field op 4 4
  simpa [Nat.shiftLeft_eq, Nat.shiftRight_eq_div_pow] using h

theorem and_0FFF (op : Nat) : op &&& 0x0FFF = op % 4096 := Nat.and_pow_two_sub_one_eq_mod op 12
theorem and_00FF (op : Nat) : op &&& 0x00FF = op % 256 := Nat.and_pow_two_sub_one_eq_mod op 8
theorem and_000F (op : Nat) : op &&& 0x000F = op % 16 := Nat.and_pow_two_sub_one_eq_mod op 4

theorem regXof_eq (op : Nat) : regXof op = op / 256 % 16 := by
  unfold regXof; rw [and_0F00, Nat.shiftRight_eq_div_pow]; omega
theorem regYof_eq (op : Nat) : regYof op = op / 16 % 16 := by
  unfold regYof; rw [and_00F0, Nat.shiftRight_eq_div_pow]; omega

/-! ## The cycle around the switch -/

theorem fetch_eq (s : Chip8) (hpc : s.pc + 1 < 4096) : fetch s = some (fetched s) := by
  have h0 : s.pc < 4096 := by omega
  simp [fetch, rd, hpc, h0, opAt, fetched]

theorem emulateCycle_next (s s1 : Chip8) (randNum : Nat) (hpc : s.pc + 1 < 4096)
    (h : execute (fetched s) randNum = some (Flow.next s1)) :
    emulateCycle s randNum = some (afterSwitch s1) := by
  simp [emulateCycle, fetch_eq s hpc, h]

theorem emulateCycle_ret (s s1 : Chip8) (randNum : Nat) (hpc : s.pc + 1 < 4096)
    (h : execute (fetched s) randNum = some (Flow.ret s1)) :
    emulateCycle s randNum = some s1 := by
  simp [emulateCycle, fetch_eq s hpc, h]

@[simp] theorem fetched_currentOp (s : Chip8) : (fetched s).currentOp = opAt s := rfl
@[simp] theorem fetched_pc (s : Chip8) : (fetched s).pc = s.pc := rfl
@[simp] theorem fetched_V (s : Chip8) : (fetched s).V = s.V := rfl
@[simp] theorem fetched_memory (s : Chip8) : (fetched s).memory = s.memory := rfl
@[simp] theorem fetched_I (s : Chip8) : (fetched s).I = s.I := rfl
@[simp] theorem fetched_stack (s : Chip8) : (fetched s).stack = s.stack := rfl
@[simp] theorem fetched_sp (s : Chip8) : (fetched s).sp = s.sp := rfl
@[simp] theorem fetched_display (s : Chip8) : (fetched s).display = s.display := rfl
@[simp] theorem fetched_keypad (s : Chip8) : (fetched s).keypad = s.keypad := rfl
@[simp] theorem fetched_delay (s : Chip8) : (fetched s).delay_timer = s.delay_timer := rfl
@[simp] theorem fetched_sound (s : Chip8) : (fetched s).sound_timer = s.sound_timer := rfl

@[simp] theorem afterSwitch_pc (s : Chip8) : (afterSwitch s).pc = (s.pc + 2) % 65536 := by
  simp only [afterSwitch]; split <;> split <;> rfl
@[simp] theorem afterSwitch_V (s : Chip8) : (afterSwitch s).V = s.V := by
  simp only [afterSwitch]; split <;> split <;> rfl
@[simp] theorem afterSwitch_memory (s : Chip8) : (afterSwitch s).memory = s.memory := by
  simp only [afterSwitch]; split <;> split <;> rfl
@[simp] theorem afterSwitch_I (s : Chip8) : (afterSwitch s).I = s.I := by
  simp only [afterSwitch]; split <;> split <;> rfl
@[simp] theorem afterSwitch_stack (s : Chip8) : (afterSwitch s).stack = s.stack := by
  simp only [afterSwitch]; split <;> split <;> rfl
@[simp] theorem afterSwitch_sp (s : Chip8) : (afterSwitch s).sp = s.sp := by
  simp only [afterSwitch]; split <;> split <;> rfl
@[simp] theorem afterSwitch_display (s : Chip8) : (afterSwitch s).display = s.display := by
  simp only [afterSwitch]; split <;> split <;> rfl
@[simp] theorem afterSwitch_keypad (s : Chip8) : (afterSwitch s).keypad = s.keypad := by
  simp only [afterSwitch]; split <;> split <;> rfl
@[simp] theorem afterSwitch_drawFlag (s : Chip8) : (afterSwitch s).drawFlag = s.drawFlag := by
  simp only [afterSwitch]; split <;> split <;> rfl

theorem execute_1nnn (s : Chip8) (randNum : Nat) (h : s.currentOp &&& 0xF000 = 0x1000) :
    execute s randNum = some (Flow.next { s with pc := sub16 (s.currentOp &&& 0x0FFF) 2 }) := by
  simp [execute, h]

theorem execute_0 (s : Chip8) (randNum : Nat) (h : s.currentOp &&& 0xF000 = 0x0000) :
    execute s randNum = case0 s := by
  simp [execute, h]

theorem execute_2nnn (s : Chip8) (randNum : Nat) (h : s.currentOp &&& 0xF000 = 0x2000) :
    execute s randNum = case2 s := by
  simp [execute, h]

theorem execute_8 (s : Chip8) (randNum : Nat) (h : s.currentOp &&& 0xF000 = 0x8000) :
    execute s randNum = some (Flow.next (case8 s)) := by
  simp [execute, h]

theorem execute_D (s : Chip8) (randNum : Nat) (h : s.currentOp &&& 0xF000 = 0xD000) :
    execute s randNum = caseD s := by
  simp [execute, h]

theorem execute_F (s : Chip8) (randNum : Nat) (h : s.currentOp &&& 0xF000 = 0xF000) :
    execute s randNum = caseF s := by
  simp [execute, h]


/-! ## Single opcodes -/

theorem caseF_33 (s : Chip8) (h : s.currentOp &&& 0x00FF = 0x33) (hI : s.I + 2 < 4096) :
    caseF s = some (Flow.next
      { s with
        memory :=
          Function.update (Function.update (Function.update s.memory s.I
            ((s.V (regXof s.currentOp) / 100) % 256))
            (s.I + 1) (((s.V (regXof s.currentOp) / 10) % 10) % 256))
            (s.I + 2) ((s.V (regXof s.currentOp) % 10) % 256) }) := by
  have h0 : s.I < 4096 := by omega
  have h1 : s.I + 1 < 4096 := by omega
  simp [caseF, h, wr, h0, h1, hI]

theorem case2_eq (s : Chip8) (hsp : s.sp < 15) :
    case2 s = some (Flow.next
      { s with
        sp := s.sp + 1
        stack := Function.update s.stack (s.sp + 1) s.pc
        pc := s.currentOp &&& 0x0FFF }) := by
  have e : (s.sp + 1) % 256 = s.sp + 1 := by omega
  have l : s.sp + 1 < 16 := by omega
  simp [case2, wr, e, l]

theorem lastPressed_none (keypad : Nat → Bool) (n : Nat) :
    lastPressed keypad n = none ↔ ∀ i < n, keypad i = false := by
  induction n with
  | zero => simp [lastPressed]
  | succ n ih =>
    simp only [lastPressed]
    by_cases h : keypad n = true
    · simp only [h, if_true]
      constructor
      · intro c; cases c
      · intro c; have := c n (by omega); simp [h] at this
    · rw [if_neg h, ih]
      constructor
      · intro c i hi
        rcases Nat.lt_succ_iff_lt_or_eq.mp hi with l | e
        · exact c i l
        · subst e; simpa using h
      · intro c i hi; exact c i (by omega)

theorem lastPressed_some (keypad : Nat → Bool) (n k : Nat) (h : lastPressed keypad n = some k) :
    k < n ∧ keypad k = true ∧ ∀ j < n, keypad j = true → j ≤ k := by
  induction n with
  | zero => simp [lastPressed] at h
  | succ n ih =>
    simp only [lastPressed] at h
    by_cases hk : keypad n = true
    · simp only [hk, if_true, Option.some.injEq] at h
      subst h
      exact ⟨by omega, hk, fun j hj _ => by omega⟩
    · rw [if_neg hk] at h
      obtain ⟨a, b, c⟩ := ih h
      refine ⟨by omega, b, fun j hj hp => ?_⟩
      rcases Nat.lt_succ_iff_lt_or_eq.mp hj with l | e
      · exact c j l hp
      · subst e; exact absurd hp hk

theorem keyScan_loop (s : Chip8) (regX n : Nat) :
    forLoop (keyScan regX) n (false, s) =
      some (match lastPressed s.keypad n with
        | none => (false, s)
        | some k => (true, setV s regX (k % 256))) := by
  induction n with
  | zero => simp [forLoop, lastPressed]
  | succ n ih =>
    simp only [forLoop, ih, Option.some_bind, lastPressed]
    cases hl : lastPressed s.keypad n with
    | none =>
      by_cases hk : s.keypad n = true <;> simp [keyScan, hk]
    | some k =>
      by_cases hk : s.keypad n = true <;> simp [keyScan, hk, setV]

theorem caseF_0A (s : Chip8) (h : s.currentOp &&& 0x00FF = 0x0A) :
    caseF s = (forLoop (keyScan (regXof s.currentOp)) 16 (false, s)).bind fun st =>
      if st.1 = false then some (Flow.ret st.2)
      else some (Flow.next { st.2 with delay_timer := st.2.V (regXof s.currentOp) }) := by
  simp [caseF, h]

/-! ## Sprite drawing -/

theorem mask_test (row b : Nat) (hb : b < 8) :
    (row &&& (0x80 >>> b) ≠ 0) ↔ row.testBit (7 - b) = true := by
  have e : (0x80 >>> b) = (2 ^ 1 - 1) <<< (7 - b) := by
    interval_cases b <;> rfl
  rw [e, and_field, Nat.testBit_to_div_mod, Nat.shiftLeft_eq, Nat.shiftRight_eq_div_pow]
  have hp : 0 < 2 ^ (7 - b) := Nat.two_pow_pos _
  have h2 : row / 2 ^ (7 - b) % 2 ^ 1 = 0 ∨ row / 2 ^ (7 - b) % 2 ^ 1 = 1 := by omega
  rcases h2 with h | h
  · have h' : row / 2 ^ (7 - b) % 2 = 0 := by simpa using h
    simp [h, h']
  · have h' : row / 2 ^ (7 - b) % 2 = 1 := by simpa using h
    simp [h, h']

theorem Drawn.congr {X Y : Nat} {s0 s : Chip8} {P Q : Nat → Nat → Prop}
    (h : Drawn X Y s0 s P) (hPQ : ∀ r b, P r b ↔ Q r b) : Drawn X Y s0 s Q := by
  have e : P = Q := by funext r b; exact propext (hPQ r b)
  exact e ▸ h

theorem drawPixel_step (X Y : Nat) (s0 s : Chip8) (P : Nat → Nat → Prop) (row r b : Nat)
    (hb : b < 8) (hd : Drawn X Y s0 s P)
    (hnew : ∀ r' b', P r' b' → b' < 8 ∧ ¬ (r' = r ∧ b' = b))
    (hin : row.testBit (7 - b) = true → X + b + (Y + r) * 64 < 2048) :
    ∃ s', drawPixel row X Y r b s = some s' ∧
      Drawn X Y s0 s' (fun r' b' => P r' b' ∨ (r' = r ∧ b' = b ∧ row.testBit (7 - b) = true)) := by
  by_cases hbit : row.testBit (7 - b) = true
  · have hm : row &&& (0x80 >>> b) ≠ 0 := (mask_test row b hb).mpr hbit
    have hlt := hin hbit
    -- the pixel about to be drawn still has its original value
    have hsame : s.display (X + b + (Y + r) * 64) = s0.display (X + b + (Y + r) * 64) := by
      by_contra hne
      obtain ⟨r', b', hP, he⟩ := (hd.flips _).mp hne
      obtain ⟨hb', hne'⟩ := hnew r' b' hP
      apply hne'
      constructor <;> omega
    -- an earlier sprite bit never addresses the pixel of `(r, b)`
    have hother : ∀ r' b', P r' b' → X + b' + (Y + r') * 64 ≠ X + b + (Y + r) * 64 := by
      intro r' b' hP he
      obtain ⟨hb', hne'⟩ := hnew r' b' hP
      apply hne'
      constructor <;> omega
    have hflips : ∀ (D : Nat → Bool),
        D = Function.update s.display (X + b + (Y + r) * 64)
          (!s.display (X + b + (Y + r) * 64)) →
        ∀ j, D j ≠ s0.display j ↔
          ∃ r' b', (P r' b' ∨ (r' = r ∧ b' = b ∧ row.testBit (7 - b) = true)) ∧
            j = X + b' + (Y + r') * 64 := by
      intro D hD j
      subst hD
      by_cases hj : j = X + b + (Y + r) * 64
      · subst hj
        simp only [Function.update_same, hsame]
        constructor
        · intro _
          exact ⟨r, b, Or.inr ⟨rfl, rfl, hbit⟩, rfl⟩
        · intro _
          cases s0.display (X + b + (Y + r) * 64) <;> simp
      · rw [Function.update_noteq hj, hd.flips j]
        constructor
        · rintro ⟨r', b', hP, he⟩
          exact ⟨r', b', Or.inl hP, he⟩
        · rintro ⟨r', b', hP | ⟨rfl, rfl, _⟩, he⟩
          · exact ⟨r', b', hP, he⟩
          · exact absurd he hj
    by_cases hl : s.display (X + b + (Y + r) * 64) = true
    · refine ⟨{ setV s 0xF 1 with
          display := Function.update s.display (X + b + (Y + r) * 64) false }, ?_, ?_⟩
      · simp [drawPixel, hm, rd, wr, hlt, hl, setV]
      · refine ⟨hd.memory_eq, hd.I_eq, hd.pc_eq, hd.sp_eq, hd.stack_eq, hd.delay_eq,
          hd.sound_eq, hd.keypad_eq, ?_, ?_, ?_, ?_⟩
        · exact hflips _ (by simp [hl])
        · intro i hi
          simp [setV, Function.update_noteq hi, hd.regs i hi]
        · intro _
          simp [setV]
        · intro hno
          exact absurd ⟨r, b, Or.inr ⟨rfl, rfl, hbit⟩, hsame ▸ hl⟩ hno
    · have hl' : s.display (X + b + (Y + r) * 64) = false := by simpa using hl
      refine ⟨{ s with
          display := Function.update s.display (X + b + (Y + r) * 64) true }, ?_, ?_⟩
      · simp [drawPixel, hm, rd, wr, hlt, hl']
      · refine ⟨hd.memory_eq, hd.I_eq, hd.pc_eq, hd.sp_eq, hd.stack_eq, hd.delay_eq,
          hd.sound_eq, hd.keypad_eq, ?_, ?_, ?_, ?_⟩
        · exact hflips _ (by simp [hl'])
        · intro i hi
          exact hd.regs i hi
        · rintro ⟨r', b', hP | ⟨rfl, rfl, _⟩, hlit⟩
          · exact hd.hit ⟨r', b', hP, hlit⟩
          · rw [← hsame, hl'] at hlit
            cases hlit
        · intro hno
          exact hd.miss (fun ⟨r', b', hP, hlit⟩ => hno ⟨r', b', Or.inl hP, hlit⟩)
  · have hm : ¬ (row &&& (0x80 >>> b) ≠ 0) := fun h => hbit ((mask_test row b hb).mp h)
    refine ⟨s, by simp only [drawPixel, if_neg hm], ?_⟩
    apply hd.congr
    intro r' b'
    simp [hbit]

theorem Drawn.refl (X Y : Nat) (s0 : Chip8) : Drawn X Y s0 s0 (fun _ _ => False) :=
  ⟨rfl, rfl, rfl, rfl, rfl, rfl, rfl, rfl, by simp, fun _ _ => rfl, by simp, fun _ => rfl⟩

theorem drawPixel_loop (X Y : Nat) (s0 s : Chip8) (P : Nat → Nat → Prop) (row r : Nat)
    (hd : Drawn X Y s0 s P) (hnew : ∀ r' b', P r' b' → b' < 8 ∧ r' ≠ r) (k : Nat) (hk : k ≤ 8)
    (hin : ∀ b < k, row.testBit (7 - b) = true → X + b + (Y + r) * 64 < 2048) :
    ∃ s', forLoop (drawPixel row X Y r) k s = some s' ∧
      Drawn X Y s0 s'
        (fun r' b' => P r' b' ∨ (r' = r ∧ b' < k ∧ row.testBit (7 - b') = true)) := by
  induction k with
  | zero =>
    refine ⟨s, rfl, hd.congr ?_⟩
    intro r' b'
    simp
  | succ k ih =>
    obtain ⟨s1, h1, d1⟩ := ih (by omega) (fun b hb => hin b (by omega))
    have hnew1 : ∀ r' b', (P r' b' ∨ (r' = r ∧ b' < k ∧ row.testBit (7 - b') = true)) →
        b' < 8 ∧ ¬ (r' = r ∧ b' = k) := by
      rintro r' b' (hP | ⟨rfl, hlt, _⟩)
      · obtain ⟨a, c⟩ := hnew r' b' hP
        exact ⟨a, fun h => c h.1⟩
      · exact ⟨by omega, fun h => by omega⟩
    obtain ⟨s2, h2, d2⟩ := drawPixel_step X Y s0 s1 _ row r k (by omega) d1 hnew1
      (hin k (by omega))
    refine ⟨s2, by simp only [forLoop, h1, Option.some_bind, h2], d2.congr ?_⟩
    intro r' b'
    constructor
    · rintro ((hP | ⟨hr, hlt, hb⟩) | ⟨hr, rfl, hb⟩)
      · exact Or.inl hP
      · exact Or.inr ⟨hr, by omega, hb⟩
      · exact Or.inr ⟨hr, by omega, hb⟩
    · rintro (hP | ⟨hr, hlt, hb⟩)
      · exact Or.inl (Or.inl hP)
      · rcases Nat.lt_succ_iff_lt_or_eq.mp hlt with l | e
        · exact Or.inl (Or.inr ⟨hr, l, hb⟩)
        · subst e
          exact Or.inr ⟨hr, rfl, hb⟩

theorem drawRow_loop (X Y : Nat) (s0 : Chip8) (n : Nat)
    (hmem : ∀ r < n, s0.I + r < 4096)
    (hin : ∀ r < n, ∀ b < 8, (s0.memory (s0.I + r)).testBit (7 - b) = true →
      X + b + (Y + r) * 64 < 2048) :
    ∃ s', forLoop (drawRow X Y) n s0 = some s' ∧
      Drawn X Y s0 s'
        (fun r b => r < n ∧ b < 8 ∧ (s0.memory (s0.I + r)).testBit (7 - b) = true) := by
  induction n with
  | zero =>
    refine ⟨s0, rfl, (Drawn.refl X Y s0).congr ?_⟩
    intro r b
    simp
  | succ n ih =>
    obtain ⟨s1, h1, d1⟩ := ih (fun r hr => hmem r (by omega)) (fun r hr => hin r (by omega))
    have hrow : drawRow X Y n s1 =
        forLoop (drawPixel (s0.memory (s0.I + n)) X Y n) 8 s1 := by
      have := hmem n (by omega)
      simp [drawRow, rd, d1.memory_eq, d1.I_eq, this]
    obtain ⟨s2, h2, d2⟩ := drawPixel_loop X Y s0 s1 _ (s0.memory (s0.I + n)) n d1
      (fun r' b' h => ⟨h.2.1, by omega⟩) 8 (by omega) (fun b hb => hin n (by omega) b hb)
    have hloop : forLoop (drawRow X Y) (n + 1) s0 = some s2 := by
      show (forLoop (drawRow X Y) n s0).bind (drawRow X Y n) = some s2
      rw [h1, Option.some_bind, hrow, h2]
    refine ⟨s2, hloop, d2.congr ?_⟩
    intro r b
    constructor
    · rintro (⟨hr, hb, hbit⟩ | ⟨rfl, hb, hbit⟩)
      · exact ⟨by omega, hb, hbit⟩
      · exact ⟨by omega, hb, hbit⟩
    · rintro ⟨hr, hb, hbit⟩
      rcases Nat.lt_succ_iff_lt_or_eq.mp hr with l | e
      · exact Or.inl ⟨l, hb, hbit⟩
      · subst e
        exact Or.inr ⟨rfl, hb, hbit⟩

theorem draw_cycle (s : Chip8) (randNum x y n : Nat) (hpc : s.pc + 1 < 4096)
    (hx : x < 16) (hy : y < 16) (hn : n < 16)
    (hop : opAt s = 0xD000 + x * 256 + y * 16 + n)
    (hmem : ∀ r < n, s.I + r < 4096)
    (hin : ∀ r < n, ∀ b < 8, (s.memory (s.I + r)).testBit (7 - b) = true →
      s.V x + b + (s.V y + r) * 64 < 2048) :
    ∃ s', emulateCycle s randNum = some s' ∧
      (∀ j, s'.display j ≠ s.display j ↔
        ∃ r b, (r < n ∧ b < 8 ∧ (s.memory (s.I + r)).testBit (7 - b) = true) ∧
          j = s.V x + b + (s.V y + r) * 64) ∧
      ((∃ r b, (r < n ∧ b < 8 ∧ (s.memory (s.I + r)).testBit (7 - b) = true) ∧
          s.display (s.V x + b + (s.V y + r) * 64) = true) → s'.V 0xF = 1) ∧
      ((¬ ∃ r b, (r < n ∧ b < 8 ∧ (s.memory (s.I + r)).testBit (7 - b) = true) ∧
          s.display (s.V x + b + (s.V y + r) * 64) = true) → s'.V 0xF = 0) ∧
      (∀ i, i ≠ 0xF → s'.V i = s.V i) ∧ s'.drawFlag = true ∧ s'.pc = s.pc + 2 ∧
      s'.memory = s.memory ∧ s'.I = s.I := by
  have h1 : (fetched s).currentOp &&& 0xF000 = 0xD000 := by
    rw [fetched_currentOp, hop, and_F000]; omega
  have h2 : ((fetched s).currentOp &&& 0x000F) % 256 = n := by
    rw [fetched_currentOp, hop, and_000F]; omega
  have h3 : regXof (fetched s).currentOp = x := by
    rw [fetched_currentOp, hop, regXof_eq]; omega
  have h4 : regYof (fetched s).currentOp = y := by
    rw [fetched_currentOp, hop, regYof_eq]; omega
  obtain ⟨s2, hl, d⟩ := drawRow_loop (s.V x) (s.V y) (setV (fetched s) 0xF 0) n hmem hin
  have hex : execute (fetched s) randNum = some (Flow.next { s2 with drawFlag := true }) := by
    rw [execute_D (fetched s) randNum h1]
    simp only [caseD, h2, h3, h4, fetched_V, hl, Option.some_bind]
  have ep : (s.pc + 2) % 65536 = s.pc + 2 := by omega
  refine ⟨_, emulateCycle_next s _ randNum hpc hex, ?_, ?_, ?_, ?_, ?_, ?_, ?_, ?_⟩
  · intro j
    simpa using d.flips j
  · intro h
    simpa using d.hit h
  · intro h
    have := d.miss h
    simpa [setV] using this
  · intro i hi
    have := d.regs i hi
    simpa [setV, Function.update_noteq hi] using this
  · simp
  · simp [d.pc_eq, setV, ep]
  · simp [d.memory_eq, setV]
  · simp [d.I_eq, setV]

/-! ## Loops -/

theorem forLoop_succ {σ : Type} (body : Nat → σ → Option σ) (n : Nat) (st : σ) :
    forLoop body (n + 1) st = (forLoop body n st).bind (body n) := rfl

theorem forLoop_inv {σ : Type} (body : Nat → σ → Option σ) (inv : σ → Prop)
    (hb : ∀ i st st', inv st → body i st = some st' → inv st')
    (n : Nat) (st st' : σ) (h0 : inv st) (h : forLoop body n st = some st') : inv st' := by
  induction n generalizing st' with
  | zero =>
    simp only [forLoop, Option.some.injEq] at h
    exact h ▸ h0
  | succ n ih =>
    rw [forLoop_succ] at h
    obtain ⟨mid, hm, hs⟩ := Option.bind_eq_some.mp h
    exact hb n mid st' (ih mid hm) hs

/-! ## Reset and ROM loading -/

theorem copyRom_loop (rom : List Nat) (n : Nat) (s : Chip8) (hn : n + 512 ≤ 4096) :
    ∃ s', forLoop (copyRomByte rom) n s = some s' ∧
      (∀ i < n, s'.memory (i + 512) = rom.getD i 0 % 256) ∧
      (∀ j, j < 512 ∨ n + 512 ≤ j → s'.memory j = s.memory j) := by
  induction n with
  | zero => exact ⟨s, rfl, fun i hi => by omega, fun _ _ => rfl⟩
  | succ n ih =>
    obtain ⟨s1, h1, hcopy, hrest⟩ := ih (by omega)
    have hlt : n + 512 < 4096 := by omega
    refine ⟨{ s1 with memory := Function.update s1.memory (n + 512) (rom.getD n 0 % 256) },
      ?_, ?_, ?_⟩
    · rw [forLoop_succ, h1]
      simp [copyRomByte, wr, hlt]
    · intro i hi
      by_cases e : i = n
      · subst e
        simp
      · have : i + 512 ≠ n + 512 := by omega
        simp only [Function.update_noteq this]
        exact hcopy i (by omega)
    · intro j hj
      have : j ≠ n + 512 := by omega
      simp only [Function.update_noteq this]
      exact hrest j (by omega)

theorem load_accepts (s : Chip8) (rom : List Nat) (h : rom.length < 3584) :
    ∃ s', load s (some rom) true rom.length = some (true, s') ∧
      ∀ i < rom.length, s'.memory (0x200 + i) = rom.getD i 0 % 256 := by
  obtain ⟨s1, h1, hcopy, -⟩ := copyRom_loop rom rom.length (initChip8 s) (by omega)
  refine ⟨s1, by simp [load, h, h1], ?_⟩
  intro i hi
  rw [show 0x200 + i = i + 512 by omega]
  exact hcopy i hi

theorem load_rejects (s : Chip8) (rom : List Nat) (h : 3584 ≤ rom.length) :
    load s (some rom) true rom.length = some (false, initChip8 s) := by
  have : ¬ rom.length < 3584 := by omega
  simp [load, this]

/-! ## Opcodes without an effect -/

theorem case0_E0 (s : Chip8) (h : s.currentOp &&& 0x00FF = 0x00E0) :
    case0 s = some (Flow.next { s with display := fun _ => false, drawFlag := true }) := by
  simp [case0, h]

theorem execute_default (s : Chip8) (randNum : Nat) (h : fallsToDefault s.currentOp) :
    execute s randNum = some (Flow.next s) := by
  rcases h with ⟨h0, h1, h2⟩ | ⟨h0, h1, h2⟩ | ⟨h0, h1, h2⟩ |
    ⟨h0, h1, h2, h3, h4, h5, h6, h7, h8, h9⟩
  · simp [execute, h0, case0, h1, h2]
  · have a0 : s.currentOp &&& 0x000F ≠ 0 := by omega
    have a1 : s.currentOp &&& 0x000F ≠ 1 := by omega
    have a2 : s.currentOp &&& 0x000F ≠ 2 := by omega
    have a3 : s.currentOp &&& 0x000F ≠ 3 := by omega
    have a4 : s.currentOp &&& 0x000F ≠ 4 := by omega
    have a5 : s.currentOp &&& 0x000F ≠ 5 := by omega
    have a6 : s.currentOp &&& 0x000F ≠ 6 := by omega
    have a7 : s.currentOp &&& 0x000F ≠ 7 := by omega
    simp [execute, h0, case8, a0, a1, a2, a3, a4, a5, a6, a7, h2]
  · simp [execute, h0, caseE, h1, h2]
  · simp [execute, h0, caseF, h1, h2, h3, h4, h5, h6, h7, h8, h9]

/-! ## What an opcode does to the program counter, the stack pointer and the stack -/

theorem SameCtl.rfl (s : Chip8) : SameCtl s s := ⟨Eq.refl _, Eq.refl _, Eq.refl _⟩

theorem SameCtl.trans {s t u : Chip8} (h1 : SameCtl s t) (h2 : SameCtl t u) : SameCtl s u :=
  ⟨h2.1.trans h1.1, h2.2.1.trans h1.2.1, h2.2.2.trans h1.2.2⟩

theorem drawPixel_ctl (row X Y byte pixel : Nat) (s t : Chip8)
    (h : drawPixel row X Y byte pixel s = some t) : SameCtl s t := by
  unfold drawPixel at h
  by_cases hm : row &&& (0x80 >>> pixel) ≠ 0
  · rw [if_pos hm] at h
    obtain ⟨lit, -, h2⟩ := Option.bind_eq_some.mp h
    obtain ⟨d1, -, h3⟩ := Option.bind_eq_some.mp h2
    simp only [Option.some.injEq] at h3
    subst h3
    cases lit <;> exact ⟨rfl, rfl, rfl⟩
  · rw [if_neg hm] at h
    simp only [Option.some.injEq] at h
    subst h
    exact SameCtl.rfl s

theorem drawRow_ctl (X Y byte : Nat) (s t : Chip8) (h : drawRow X Y byte s = some t) :
    SameCtl s t := by
  unfold drawRow at h
  obtain ⟨row, -, hl⟩ := Option.bind_eq_some.mp h
  exact forLoop_inv _ (SameCtl s)
    (fun i st st' hi hs => hi.trans (drawPixel_ctl _ _ _ _ _ _ _ hs)) 8 s t (SameCtl.rfl s) hl

theorem storeReg_ctl (i : Nat) (s t : Chip8) (h : storeReg i s = some t) : SameCtl s t := by
  unfold storeReg at h
  obtain ⟨m1, -, h2⟩ := Option.bind_eq_some.mp h
  simp only [Option.some.injEq] at h2
  subst h2
  exact ⟨rfl, rfl, rfl⟩

theorem loadReg_ctl (i : Nat) (s t : Chip8) (h : loadReg i s = some t) : SameCtl s t := by
  unfold loadReg at h
  obtain ⟨b, -, h2⟩ := Option.bind_eq_some.mp h
  simp only [Option.some.injEq] at h2
  subst h2
  exact ⟨rfl, rfl, rfl⟩

theorem keyScan_ctl (regX i : Nat) (st st' : Bool × Chip8) (h : keyScan regX i st = some st') :
    SameCtl st.2 st'.2 := by
  unfold keyScan at h
  split_ifs at h <;> simp only [Option.some.injEq] at h <;> subst h
  · exact ⟨rfl, rfl, rfl⟩
  · exact SameCtl.rfl _

@[simp] theorem setV_pc (s : Chip8) (i v : Nat) : (setV s i v).pc = s.pc := rfl
@[simp] theorem setV_sp (s : Chip8) (i v : Nat) : (setV s i v).sp = s.sp := rfl
@[simp] theorem setV_stack (s : Chip8) (i v : Nat) : (setV s i v).stack = s.stack := rfl

theorem setV_ctl (s : Chip8) (i v : Nat) : SameCtl s (setV s i v) := ⟨rfl, rfl, rfl⟩

theorem ite_ctl (s a b : Chip8) (c : Prop) [Decidable c] (ha : SameCtl s a)
    (hb : SameCtl s b) : SameCtl s (if c then a else b) := by
  split_ifs
  · exact ha
  · exact hb

theorem case8_ctl (s : Chip8) : SameCtl s (case8 s) := by
  simp only [case8]
  repeat' apply ite_ctl
  all_goals exact SameCtl.rfl s

theorem SameCtl.plain {s t : Chip8} (h : SameCtl s t) : Plain s t :=
  ⟨h.2.1, h.2.2, Or.inl h.1⟩

theorem skip_plain (s : Chip8) (c : Prop) [Decidable c] :
    Plain s (if c then { s with pc := (s.pc + 2) % 65536 } else s) := by
  split_ifs
  · exact ⟨rfl, rfl, Or.inr rfl⟩
  · exact (SameCtl.rfl s).plain

theorem case0_ctl (s : Chip8) (f : Flow) (h : case0 s = some f)
    (hne : s.currentOp &&& 0x00FF ≠ 0x00EE) : SameCtl s f.state := by
  simp only [case0, if_neg hne] at h
  split_ifs at h <;> simp only [Option.some.injEq] at h <;> subst h
  · exact ⟨rfl, rfl, rfl⟩
  · exact SameCtl.rfl s

theorem caseD_ctl (s : Chip8) (f : Flow) (h : caseD s = some f) : SameCtl s f.state := by
  simp only [caseD] at h
  obtain ⟨s2, hl, h2⟩ := Option.bind_eq_some.mp h
  simp only [Option.some.injEq] at h2
  subst h2
  have := forLoop_inv _ (SameCtl (setV s 0xF 0))
    (fun i st st' hi hs => hi.trans (drawRow_ctl _ _ _ _ _ hs)) _ _ s2 (SameCtl.rfl _) hl
  exact ⟨this.1, this.2.1, this.2.2⟩

theorem caseE_plain (s : Chip8) (f : Flow) (h : caseE s = some f) : Plain s f.state := by
  simp only [caseE] at h
  split_ifs at h
  · obtain ⟨key, -, h2⟩ := Option.bind_eq_some.mp h
    simp only [Option.some.injEq] at h2
    subst h2
    exact skip_plain s _
  · obtain ⟨key, -, h2⟩ := Option.bind_eq_some.mp h
    simp only [Option.some.injEq] at h2
    subst h2
    exact skip_plain s _
  · simp only [Option.some.injEq] at h
    subst h
    exact (SameCtl.rfl s).plain

theorem some_next_ctl (s t : Chip8) (f : Flow) (h : some (Flow.next t) = some f)
    (ht : SameCtl s t) : SameCtl s f.state := by
  simp only [Option.some.injEq] at h
  subst h
  exact ht

theorem caseF_ctl (s : Chip8) (f : Flow) (h : caseF s = some f) : SameCtl s f.state := by
  simp only [caseF] at h
  by_cases c1 : s.currentOp &&& 0x00FF = 0x07
  · rw [if_pos c1] at h
    exact some_next_ctl s _ f h ⟨rfl, rfl, rfl⟩
  rw [if_neg c1] at h
  by_cases c2 : s.currentOp &&& 0x00FF = 0x0A
  · rw [if_pos c2] at h
    obtain ⟨st, hl, h2⟩ := Option.bind_eq_some.mp h
    have hinv := forLoop_inv _ (fun st : Bool × Chip8 => SameCtl s st.2)
      (fun i a b hi hs => hi.trans (keyScan_ctl _ _ _ _ hs)) _ _ st (SameCtl.rfl s) hl
    by_cases c : st.1 = false
    · rw [if_pos c] at h2
      simp only [Option.some.injEq] at h2
      subst h2
      exact hinv
    · rw [if_neg c] at h2
      exact some_next_ctl s _ f h2 ⟨hinv.1, hinv.2.1, hinv.2.2⟩
  rw [if_neg c2] at h
  by_cases c3 : s.currentOp &&& 0x00FF = 0x15
  · rw [if_pos c3] at h
    exact some_next_ctl s _ f h ⟨rfl, rfl, rfl⟩
  rw [if_neg c3] at h
  by_cases c4 : s.currentOp &&& 0x00FF = 0x18
  · rw [if_pos c4] at h
    exact some_next_ctl s _ f h ⟨rfl, rfl, rfl⟩
  rw [if_neg c4] at h
  by_cases c5 : s.currentOp &&& 0x00FF = 0x1E
  · rw [if_pos c5] at h
    exact some_next_ctl s _ f h ⟨rfl, rfl, rfl⟩
  rw [if_neg c5] at h
  by_cases c6 : s.currentOp &&& 0x00FF = 0x29
  · rw [if_pos c6] at h
    exact some_next_ctl s _ f h ⟨rfl, rfl, rfl⟩
  rw [if_neg c6] at h
  by_cases c7 : s.currentOp &&& 0x00FF = 0x33
  · rw [if_pos c7] at h
    obtain ⟨m1, -, h2⟩ := Option.bind_eq_some.mp h
    obtain ⟨m2, -, h3⟩ := Option.bind_eq_some.mp h2
    obtain ⟨m3, -, h4⟩ := Option.bind_eq_some.mp h3
    exact some_next_ctl s _ f h4 ⟨rfl, rfl, rfl⟩
  rw [if_neg c7] at h
  by_cases c8 : s.currentOp &&& 0x00FF = 0x55
  · rw [if_pos c8] at h
    obtain ⟨s1, hl, h2⟩ := Option.bind_eq_some.mp h
    have := forLoop_inv _ (SameCtl s)
      (fun i st st' hi hs => hi.trans (storeReg_ctl _ _ _ hs)) _ _ s1 (SameCtl.rfl _) hl
    exact some_next_ctl s _ f h2 ⟨this.1, this.2.1, this.2.2⟩
  rw [if_neg c8] at h
  by_cases c9 : s.currentOp &&& 0x00FF = 0x65
  · rw [if_pos c9] at h
    obtain ⟨s1, hl, h2⟩ := Option.bind_eq_some.mp h
    have := forLoop_inv _ (SameCtl s)
      (fun i st st' hi hs => hi.trans (loadReg_ctl _ _ _ hs)) _ _ s1 (SameCtl.rfl _) hl
    exact some_next_ctl s _ f h2 ⟨this.1, this.2.1, this.2.2⟩
  rw [if_neg c9] at h
  exact some_next_ctl s _ f h (SameCtl.rfl s)

theorem execute_3xkk (s : Chip8) (randNum : Nat) (h : s.currentOp &&& 0xF000 = 0x3000) :
    execute s randNum = some (Flow.next
      (if s.V (regXof s.currentOp) = (s.currentOp &&& 0x00FF) % 256
        then { s with pc := (s.pc + 2) % 65536 } else s)) := by
  simp [execute, h]

theorem execute_4xkk (s : Chip8) (randNum : Nat) (h : s.currentOp &&& 0xF000 = 0x4000) :
    execute s randNum = some (Flow.next
      (if s.V (regXof s.currentOp) ≠ (s.currentOp &&& 0x00FF) % 256
        then { s with pc := (s.pc + 2) % 65536 } else s)) := by
  simp [execute, h]

theorem execute_5xy0 (s : Chip8) (randNum : Nat) (h : s.currentOp &&& 0xF000 = 0x5000) :
    execute s randNum = some (Flow.next
      (if s.V (regXof s.currentOp) = s.V (regYof s.currentOp)
        then { s with pc := (s.pc + 2) % 65536 } else s)) := by
  simp [execute, h]

theorem execute_6xkk (s : Chip8) (randNum : Nat) (h : s.currentOp &&& 0xF000 = 0x6000) :
    execute s randNum =
      some (Flow.next (setV s (regXof s.currentOp) ((s.currentOp &&& 0x00FF) % 256))) := by
  simp [execute, h]

theorem execute_7xkk (s : Chip8) (randNum : Nat) (h : s.currentOp &&& 0xF000 = 0x7000) :
    execute s randNum = some (Flow.next (setV s (regXof s.currentOp)
      ((s.V (regXof s.currentOp) + (s.currentOp &&& 0x00FF) % 256) % 256))) := by
  simp [execute, h]

theorem execute_9xy0 (s : Chip8) (randNum : Nat) (h : s.currentOp &&& 0xF000 = 0x9000) :
    execute s randNum = some (Flow.next
      (if s.V (regXof s.currentOp) ≠ s.V (regYof s.currentOp)
        then { s with pc := (s.pc + 2) % 65536 } else s)) := by
  simp [execute, h]

theorem execute_Annn (s : Chip8) (randNum : Nat) (h : s.currentOp &&& 0xF000 = 0xA000) :
    execute s randNum = some (Flow.next { s with I := s.currentOp &&& 0x0FFF }) := by
  simp [execute, h]

theorem execute_Bnnn (s : Chip8) (randNum : Nat) (h : s.currentOp &&& 0xF000 = 0xB000) :
    execute s randNum = some (Flow.next
      { s with pc := sub16 (((s.currentOp &&& 0x0FFF) + s.V 0) % 65536) 2 }) := by
  simp [execute, h]

theorem execute_Cxkk (s : Chip8) (randNum : Nat) (h : s.currentOp &&& 0xF000 = 0xC000) :
    execute s randNum = some (Flow.next (setV s ((s.currentOp &&& 0x0F00) % 256)
      ((randNum % 256) &&& ((s.currentOp &&& 0x00FF) % 256)))) := by
  simp [execute, h]

theorem execute_E (s : Chip8) (randNum : Nat) (h : s.currentOp &&& 0xF000 = 0xE000) :
    execute s randNum = caseE s := by
  simp [execute, h]

theorem family_cases (op : Nat) :
    op &&& 0xF000 = 0x0000 ∨ op &&& 0xF000 = 0x1000 ∨ op &&& 0xF000 = 0x2000 ∨
    op &&& 0xF000 = 0x3000 ∨ op &&& 0xF000 = 0x4000 ∨ op &&& 0xF000 = 0x5000 ∨
    op &&& 0xF000 = 0x6000 ∨ op &&& 0xF000 = 0x7000 ∨ op &&& 0xF000 = 0x8000 ∨
    op &&& 0xF000 = 0x9000 ∨ op &&& 0xF000 = 0xA000 ∨ op &&& 0xF000 = 0xB000 ∨
    op &&& 0xF000 = 0xC000 ∨ op &&& 0xF000 = 0xD000 ∨ op &&& 0xF000 = 0xE000 ∨
    op &&& 0xF000 = 0xF000 := by
  rw [and_F000]
  omega

theorem execute_plain (s : Chip8) (randNum : Nat) (f : Flow)
    (h : execute s randNum = some f) (hn : ¬ transfersControl s.currentOp) :
    Plain s f.state := by
  simp only [transfersControl, not_or, not_and] at hn
  obtain ⟨n0, n1, n2, nB⟩ := hn
  rcases family_cases s.currentOp with c | c | c | c | c | c | c | c | c | c | c | c | c |
    c | c | c
  · rw [execute_0 s randNum c] at h
    exact (case0_ctl s f h (n0 c)).plain
  · exact absurd c n1
  · exact absurd c n2
  · rw [execute_3xkk s randNum c, Option.some.injEq] at h
    subst h
    exact skip_plain s _
  · rw [execute_4xkk s randNum c, Option.some.injEq] at h
    subst h
    exact skip_plain s _
  · rw [execute_5xy0 s randNum c, Option.some.injEq] at h
    subst h
    exact skip_plain s _
  · rw [execute_6xkk s randNum c, Option.some.injEq] at h
    subst h
    exact (setV_ctl s _ _).plain
  · rw [execute_7xkk s randNum c, Option.some.injEq] at h
    subst h
    exact (setV_ctl s _ _).plain
  · rw [execute_8 s randNum c, Option.some.injEq] at h
    subst h
    exact (case8_ctl s).plain
  · rw [execute_9xy0 s randNum c, Option.some.injEq] at h
    subst h
    exact skip_plain s _
  · rw [execute_Annn s randNum c, Option.some.injEq] at h
    subst h
    exact ⟨rfl, rfl, Or.inl rfl⟩
  · exact absurd c nB
  · rw [execute_Cxkk s randNum c, Option.some.injEq] at h
    subst h
    exact (setV_ctl s _ _).plain
  · rw [execute_D s randNum c] at h
    exact (caseD_ctl s f h).plain
  · rw [execute_E s randNum c] at h
    exact caseE_plain s f h
  · rw [execute_F s randNum c] at h
    exact (caseF_ctl s f h).plain

theorem emulateCycle_some (s s' : Chip8) (randNum : Nat) (h : emulateCycle s randNum = some s') :
    s.pc + 1 < 4096 ∧ ∃ f, execute (fetched s) randNum = some f ∧ s' = f.finish := by
  by_cases hpc : s.pc + 1 < 4096
  · refine ⟨hpc, ?_⟩
    simp only [emulateCycle, fetch_eq s hpc, Option.some_bind] at h
    obtain ⟨f, hf, h2⟩ := Option.bind_eq_some.mp h
    refine ⟨f, hf, ?_⟩
    cases f <;> simp only [Option.some.injEq] at h2 <;> exact h2.symm
  · exfalso
    have : fetch s = none := by
      simp only [fetch, rd]
      split_ifs <;> simp
    simp [emulateCycle, this] at h

theorem emulateCycle_of_execute (s : Chip8) (randNum : Nat) (f : Flow) (hpc : s.pc + 1 < 4096)
    (h : execute (fetched s) randNum = some f) : emulateCycle s randNum = some f.finish := by
  cases f
  · exact emulateCycle_next s _ randNum hpc h
  · exact emulateCycle_ret s _ randNum hpc h

@[simp] theorem finish_sp (f : Flow) : f.finish.sp = f.state.sp := by
  cases f <;> simp [Flow.finish, Flow.state]

@[simp] theorem finish_stack (f : Flow) : f.finish.stack = f.state.stack := by
  cases f <;> simp [Flow.finish, Flow.state]

theorem finish_pc (f : Flow) :
    f.finish.pc = f.state.pc ∨ f.finish.pc = (f.state.pc + 2) % 65536 := by
  cases f <;> simp [Flow.finish, Flow.state]

theorem case0_EE (s : Chip8) (h : s.currentOp &&& 0x00FF = 0x00EE) (hsp : s.sp < 16) :
    case0 s = some (Flow.next { s with pc := s.stack s.sp, sp := (s.sp + 255) % 256 }) := by
  simp [case0, h, rd, hsp]

theorem execute_stack (s : Chip8) (randNum : Nat) (f : Flow)
    (h : execute s randNum = some f) (h2 : s.currentOp &&& 0xF000 ≠ 0x2000)
    (h0 : ¬ (s.currentOp &&& 0xF000 = 0x0000 ∧ s.currentOp &&& 0x00FF = 0x00EE)) :
    f.state.sp = s.sp ∧ f.state.stack = s.stack := by
  by_cases c1 : s.currentOp &&& 0xF000 = 0x1000
  · rw [execute_1nnn s randNum c1, Option.some.injEq] at h
    subst h
    simp [Flow.state]
  by_cases cB : s.currentOp &&& 0xF000 = 0xB000
  · rw [execute_Bnnn s randNum cB, Option.some.injEq] at h
    subst h
    simp [Flow.state]
  have hp := execute_plain s randNum f h (by
    simp only [transfersControl, not_or]
    exact ⟨h0, c1, h2, cB⟩)
  exact ⟨hp.1, hp.2.1⟩

/-! ## Register store and load -/

theorem storeReg_loop (s : Chip8) (n : Nat) (h : ∀ i < n, s.I + i < 4096) :
    ∃ m, forLoop storeReg n s = some { s with memory := m } ∧
      (∀ i < n, m (s.I + i) = s.V i) ∧
      (∀ j, j < s.I ∨ s.I + n ≤ j → m j = s.memory j) := by
  induction n with
  | zero => exact ⟨s.memory, rfl, fun i hi => by omega, fun _ _ => rfl⟩
  | succ n ih =>
    obtain ⟨m, h1, hw, hrest⟩ := ih (fun i hi => h i (by omega))
    have hlt : s.I + n < 4096 := h n (by omega)
    refine ⟨Function.update m (s.I + n) (s.V n), ?_, ?_, ?_⟩
    · rw [forLoop_succ, h1]
      simp [storeReg, wr, hlt]
    · intro i hi
      by_cases e : i = n
      · subst e
        simp
      · have : s.I + i ≠ s.I + n := by omega
        rw [Function.update_noteq this]
        exact hw i (by omega)
    · intro j hj
      have : j ≠ s.I + n := by omega
      rw [Function.update_noteq this]
      exact hrest j (by omega)

theorem loadReg_loop (s : Chip8) (n : Nat) (h : ∀ i < n, s.I + i < 4096) :
    ∃ v, forLoop loadReg n s = some { s with V := v } ∧
      (∀ i < n, v i = s.memory (s.I + i)) ∧ (∀ i, n ≤ i → v i = s.V i) := by
  induction n with
  | zero => exact ⟨s.V, rfl, fun i hi => by omega, fun _ _ => rfl⟩
  | succ n ih =>
    obtain ⟨v, h1, hr, hrest⟩ := ih (fun i hi => h i (by omega))
    have hlt : s.I + n < 4096 := h n (by omega)
    refine ⟨Function.update v n (s.memory (s.I + n)), ?_, ?_, ?_⟩
    · rw [forLoop_succ, h1]
      simp [loadReg, rd, hlt, setV]
    · intro i hi
      by_cases e : i = n
      · subst e
        simp
      · rw [Function.update_noteq e]
        exact hr i (by omega)
    · intro i hi
      have : i ≠ n := by omega
      rw [Function.update_noteq this]
      exact hrest i (by omega)

theorem caseF_55 (s : Chip8) (h : s.currentOp &&& 0x00FF = 0x55) :
    caseF s = (forLoop storeReg (regXof s.currentOp) s).bind fun s1 =>
      some (Flow.next { s1 with I := (s1.I + (s1.I + regXof s.currentOp + 1)) % 65536 }) := by
  simp [caseF, h]

theorem caseF_65 (s : Chip8) (h : s.currentOp &&& 0x00FF = 0x65) :
    caseF s = (forLoop loadReg (regXof s.currentOp) s).bind fun s1 =>
      some (Flow.next { s1 with I := (s1.I + (s1.I + regXof s.currentOp + 1)) % 65536 }) := by
  simp [caseF, h]

/-! ## The timers after the switch -/

@[simp] theorem afterSwitch_delay (s : Chip8) :
    (afterSwitch s).delay_timer = s.delay_timer - 1 := by
  by_cases hd : s.delay_timer > 0 <;> by_cases hs : s.sound_timer > 0 <;>
    simp [afterSwitch, hd, hs]
  all_goals omega

@[simp] theorem afterSwitch_sound (s : Chip8) :
    (afterSwitch s).sound_timer = s.sound_timer - 1 := by
  by_cases hd : s.delay_timer > 0 <;> by_cases hs : s.sound_timer > 0 <;>
    simp [afterSwitch, hd, hs]
  all_goals omega

/-! ## When the stack and BCD opcodes stay inside their arrays -/

theorem case2_some (s : Chip8) (f : Flow) (h : case2 s = some f) : (s.sp + 1) % 256 < 16 := by
  simp only [case2] at h
  obtain ⟨stack1, hw, -⟩ := Option.bind_eq_some.mp h
  simp only [wr] at hw
  by_contra hn
  rw [if_neg hn] at hw
  cases hw

theorem case0_EE_some (s : Chip8) (f : Flow) (hE : s.currentOp &&& 0x00FF = 0x00EE)
    (h : case0 s = some f) : s.sp < 16 := by
  simp only [case0, hE, if_true] at h
  obtain ⟨top, hr, -⟩ := Option.bind_eq_some.mp h
  simp only [rd] at hr
  by_contra hn
  rw [if_neg hn] at hr
  cases hr

theorem caseF_33_some (s : Chip8) (f : Flow) (h33 : s.currentOp &&& 0x00FF = 0x33)
    (h : caseF s = some f) : s.I + 2 < 4096 := by
  have e : caseF s =
      (wr 4096 s.memory s.I ((s.V (regXof s.currentOp) / 100) % 256)).bind fun m1 =>
      (wr 4096 m1 (s.I + 1) (((s.V (regXof s.currentOp) / 10) % 10) % 256)).bind fun m2 =>
      (wr 4096 m2 (s.I + 2) ((s.V (regXof s.currentOp) % 10) % 256)).bind fun m3 =>
        some (Flow.next { s with memory := m3 }) := by
    simp [caseF, h33]
  rw [e] at h
  obtain ⟨m1, -, h2⟩ := Option.bind_eq_some.mp h
  obtain ⟨m2, -, h3⟩ := Option.bind_eq_some.mp h2
  obtain ⟨m3, hw, -⟩ := Option.bind_eq_some.mp h3
  simp only [wr] at hw
  by_contra hn
  rw [if_neg hn] at hw
  cases hw

/-! ## Claims -/

/-- Claim C1, ADD with carry (8xy4), evaluated on the code: with `V[0] = 1`, `V[1] = 1`
and `VF = 1` beforehand the sum 2 does not exceed 255, yet the cycle leaves `VF = 1`
(and `V[0] = 2`), because the code only ever writes 1 into `VF`; on the documented
scenario `V[0] = 0xFF`, `V[1] = 0x01` it gives `V[0] = 0x00`, `VF = 1`. -/
theorem C1_add_leaves_stale_carry :
    addStaleState.V 0 + addStaleState.V 1 = 2 ∧ addStaleState.V 0xF = 1 ∧
    (emulateCycle addStaleState 0).map (fun t => (t.V 0, t.V 0xF)) = some (2, 1) ∧
    (emulateCycle addCarryState 0).map (fun t => (t.V 0, t.V 0xF)) = some (0x00, 1) := by
  decide

/-- Claim C2, SUB (8xy5), evaluated on the code: with `V[0] = 3 < V[1] = 5` and `VF = 1`
beforehand the cycle leaves `VF = 1` and `V[0] = 254`; with `y = 0xF`, `V[0] = 9` and
`VF = 4` it leaves `V[0] = 8`, not `(9 - 4) mod 256`, because `VF` is written before the
operands are read; on the documented scenario `V[0] = 5`, `V[1] = 3` it gives
`V[0] = 2`, `VF = 1`. -/
theorem C2_sub_leaves_stale_flag :
    subStaleState.V 0 < subStaleState.V 1 ∧ subStaleState.V 0xF = 1 ∧
    (emulateCycle subStaleState 0).map (fun t => (t.V 0, t.V 0xF)) = some (254, 1) ∧
    (emulateCycle subFlagOperandState 0).map (fun t => (t.V 0, t.V 0xF)) = some (8, 1) ∧
    (emulateCycle subState 0).map (fun t => (t.V 0, t.V 0xF)) = some (0x02, 1) := by
  decide

/-- Claim C3, Fx55 then Fx65, evaluated on the code with `x = 1`, `V[0] = 7`, `V[1] = 9`,
`I = 0x300`: Fx55 stores only `V[0]` (`memory[0x301]` stays 0) and leaves `I = 0x602`;
after the registers are overwritten with 0, Fx65 leaves `V[0] = 0`, `V[1] = 0`; even with
`I` put back to `0x300` before Fx65 it restores `V[0] = 7` but leaves `V[1] = 0`. -/
theorem C3_store_load_not_restored :
    (emulateCycle storeLoadState 0).map
      (fun t => (t.memory 0x300, t.memory 0x301, t.I, t.pc)) = some (7, 0, 0x602, 0x202) ∧
    ((emulateCycle storeLoadState 0).bind fun s1 =>
      emulateCycle { s1 with V := fun _ => 0 } 0).map (fun t => (t.V 0, t.V 1)) = some (0, 0) ∧
    ((emulateCycle storeLoadState 0).bind fun s1 =>
      emulateCycle { s1 with V := fun _ => 0, I := 0x300 } 0).map (fun t => (t.V 0, t.V 1))
        = some (7, 0) := by
  decide

/-- Claim C4, BCD law (Fx33): for every register `x`, every `V[x]` in `[0,255]` and every
`I` with `I+2 < 4096`, one cycle on Fx33 returns a state with `memory[I] = V[x]/100`,
`memory[I+1] = (V[x]/10) mod 10`, `memory[I+2] = V[x] mod 10` (`I` and `V[x]` unchanged),
so that `100*memory[I] + 10*memory[I+1] + memory[I+2] = V[x]`. -/
theorem C4_bcd (s : Chip8) (randNum x : Nat) (hpc : s.pc + 1 < 4096) (hx : x < 16)
    (hop : opAt s = 0xF033 + x * 256) (hv : s.V x < 256) (hI : s.I + 2 < 4096) :
    ∃ s', emulateCycle s randNum = some s' ∧ s'.I = s.I ∧ s'.V x = s.V x ∧
      s'.memory s.I = s.V x / 100 ∧
      s'.memory (s.I + 1) = (s.V x / 10) % 10 ∧
      s'.memory (s.I + 2) = s.V x % 10 ∧
      100 * s'.memory s'.I + 10 * s'.memory (s'.I + 1) + s'.memory (s'.I + 2) = s'.V x := by
  have h1 : (fetched s).currentOp &&& 0xF000 = 0xF000 := by
    rw [fetched_currentOp, hop, and_F000]; omega
  have h2 : (fetched s).currentOp &&& 0x00FF = 0x33 := by
    rw [fetched_currentOp, hop, and_00FF]; omega
  have h3 : regXof (fetched s).currentOp = x := by
    rw [fetched_currentOp, hop, regXof_eq]; omega
  have hex := execute_F (fetched s) randNum h1
  rw [caseF_33 (fetched s) h2 (by simpa using hI), h3] at hex
  refine ⟨_, emulateCycle_next s _ randNum hpc hex, ?_⟩
  have e1 : s.V x / 100 % 256 = s.V x / 100 := by omega
  have e2 : s.V x / 10 % 10 % 256 = s.V x / 10 % 10 := by omega
  have e3 : s.V x % 10 % 256 = s.V x % 10 := by omega
  simp [Function.update, e1, e2, e3]
  omega

/-- Claim C4 at `V[0] = 234`, `I = 0x300`, opcode `F033`: the three bytes are 2, 3, 4. -/
theorem C4_bcd_witness :
    (bcdState.pc + 1 < 4096 ∧ opAt bcdState = 0xF033 + 0 * 256 ∧
      bcdState.V 0 = 234 ∧ bcdState.I + 2 < 4096) ∧
    (∃ s', emulateCycle bcdState 0 = some s' ∧ s'.I = bcdState.I ∧
      s'.V 0 = bcdState.V 0 ∧
      s'.memory bcdState.I = bcdState.V 0 / 100 ∧
      s'.memory (bcdState.I + 1) = (bcdState.V 0 / 10) % 10 ∧
      s'.memory (bcdState.I + 2) = bcdState.V 0 % 10 ∧
      100 * s'.memory s'.I + 10 * s'.memory (s'.I + 1) + s'.memory (s'.I + 2) = s'.V 0) ∧
    (emulateCycle bcdState 0).map
      (fun t => (t.memory 0x300, t.memory 0x301, t.memory 0x302)) = some (2, 3, 4) :=
  ⟨⟨by decide, by decide, by decide, by decide⟩,
   C4_bcd bcdState 0 0 (by decide) (by decide) (by decide) (by decide) (by decide),
   by decide⟩

/-- Claim C5 as stated fails: with the sprite byte `0xFF` drawn at `V[x] = 60`, `V[y] = 0`
and only pixel 64 (column 0 of row 1) lit, no sprite bit lands on a lit pixel inside the
plane under origin-modulo and clipping, yet the cycle sets `VF = 1`: bit 4 of the sprite
is drawn at index `60 + 4 = 64`. -/
theorem C5_clip_counterexample :
    (emulateCycle clipState 0).map (fun t => t.V 0xF) = some 1 ∧
    ¬ ∃ r < 1, ∃ b < 8,
      (clipState.memory (clipState.I + r)).testBit (7 - b) = true ∧
      (clipState.V 0 &&& 63) + b < 64 ∧ (clipState.V 1 &&& 31) + r < 32 ∧
      clipState.display
        (((clipState.V 1 &&& 31) + r) * 64 + ((clipState.V 0 &&& 63) + b)) = true := by
  decide

/-- Claim C5 as amended, sprite collision (Dxyn) on the linear index the code uses: when
the cycle stays inside its arrays (`PC+1 < 4096`, `I+r < 4096` for every row `r < n`, and
`V[x] + b + (V[y]+r)*64 < 2048` for every set sprite bit), one cycle on Dxyn returns a state
with `VF = 1` if and only if there are `r < n` and `b < 8` with bit `7-b` of `memory[I+r]`
set and framebuffer entry `(V[y]+r)*64 + V[x]+b` lit before the cycle; otherwise `VF = 0`.
The origin is not reduced modulo 64 or 32 and no sprite bit is clipped. -/
theorem C5_collision_flag (s : Chip8) (randNum x y n : Nat) (hpc : s.pc + 1 < 4096)
    (hx : x < 16) (hy : y < 16) (hn : n < 16)
    (hop : opAt s = 0xD000 + x * 256 + y * 16 + n)
    (hmem : ∀ r < n, s.I + r < 4096)
    (hin : ∀ r < n, ∀ b < 8, (s.memory (s.I + r)).testBit (7 - b) = true →
      s.V x + b + (s.V y + r) * 64 < 2048) :
    ∃ s', emulateCycle s randNum = some s' ∧
      (s'.V 0xF = 1 ↔ ∃ r < n, ∃ b < 8, (s.memory (s.I + r)).testBit (7 - b) = true ∧
        s.display ((s.V y + r) * 64 + (s.V x + b)) = true) ∧
      ((¬ ∃ r < n, ∃ b < 8, (s.memory (s.I + r)).testBit (7 - b) = true ∧
        s.display ((s.V y + r) * 64 + (s.V x + b)) = true) → s'.V 0xF = 0) := by
  obtain ⟨s', hs, -, hhit, hmiss, -⟩ := draw_cycle s randNum x y n hpc hx hy hn hop hmem hin
  have key : (∃ r b, (r < n ∧ b < 8 ∧ (s.memory (s.I + r)).testBit (7 - b) = true) ∧
        s.display (s.V x + b + (s.V y + r) * 64) = true) ↔
      ∃ r < n, ∃ b < 8, (s.memory (s.I + r)).testBit (7 - b) = true ∧
        s.display ((s.V y + r) * 64 + (s.V x + b)) = true := by
    constructor
    · rintro ⟨r, b, ⟨hr, hb, hbit⟩, hl⟩
      refine ⟨r, hr, b, hb, hbit, ?_⟩
      rw [show (s.V y + r) * 64 + (s.V x + b) = s.V x + b + (s.V y + r) * 64 by omega]
      exact hl
    · rintro ⟨r, hr, b, hb, hbit, hl⟩
      refine ⟨r, b, ⟨hr, hb, hbit⟩, ?_⟩
      rw [show s.V x + b + (s.V y + r) * 64 = (s.V y + r) * 64 + (s.V x + b) by omega]
      exact hl
  refine ⟨s', hs, ⟨?_, fun h => hhit (key.mpr h)⟩, fun h => hmiss (fun c => h (key.mp c))⟩
  intro h1
  by_contra hno
  have := hmiss (fun c => hno (key.mp c))
  omega

/-- Claim C5 as amended at the sprite `0xFF` drawn at the origin over a framebuffer with
pixel 3 lit: `VF = 1`, pixel 3 is cleared and pixel 4 is set. -/
theorem C5_collision_flag_witness :
    (collisionState.pc + 1 < 4096 ∧
      opAt collisionState = 0xD000 + 0 * 256 + 1 * 16 + 1 ∧
      (∀ r < 1, collisionState.I + r < 4096) ∧
      (∀ r < 1, ∀ b < 8,
        (collisionState.memory (collisionState.I + r)).testBit (7 - b) = true →
        collisionState.V 0 + b + (collisionState.V 1 + r) * 64 < 2048)) ∧
    (∃ s', emulateCycle collisionState 0 = some s' ∧
      (s'.V 0xF = 1 ↔ ∃ r < 1, ∃ b < 8,
        (collisionState.memory (collisionState.I + r)).testBit (7 - b) = true ∧
        collisionState.display
          ((collisionState.V 1 + r) * 64 + (collisionState.V 0 + b)) = true) ∧
      ((¬ ∃ r < 1, ∃ b < 8,
        (collisionState.memory (collisionState.I + r)).testBit (7 - b) = true ∧
        collisionState.display
          ((collisionState.V 1 + r) * 64 + (collisionState.V 0 + b)) = true) →
        s'.V 0xF = 0)) ∧
    (emulateCycle collisionState 0).map (fun t => (t.V 0xF, t.display 3, t.display 4))
      = some (1, false, true) :=
  ⟨⟨by decide, by decide, by decide, by decide⟩,
   C5_collision_flag collisionState 0 0 1 1 (by decide) (by decide) (by decide)
     (by decide) (by decide) (by decide) (by decide),
   by decide⟩

/-- Claim C6 as stated fails: with the sprite byte `0xFF` drawn at `V[x] = 60`, `V[y] = 0`
on an empty framebuffer, the pixel at column 0 of row 1 is flipped by the cycle although
no sprite bit has `px = (V[x] & 63) + b = 0` and `py = (V[y] & 31) + r = 1`: bit 4 of the
sprite wraps onto the next row. -/
theorem C6_wrap_counterexample :
    wrapState.display (1 * 64 + 0) = false ∧
    (emulateCycle wrapState 0).map (fun t => t.display (1 * 64 + 0)) = some true ∧
    ¬ ∃ r < 1, ∃ b < 8,
      (wrapState.memory (wrapState.I + r)).testBit (7 - b) = true ∧
      0 = (wrapState.V 0 &&& 63) + b ∧ 1 = (wrapState.V 1 &&& 31) + r := by
  decide

/-- Claim C6 as amended, the pixels Dxyn flips: when the cycle stays inside its arrays
(`PC+1 < 4096`, `I+r < 4096` for every row `r < n`, and `V[x] + b + (V[y]+r)*64 < 2048` for
every set sprite bit), one cycle on Dxyn returns a state in which a framebuffer pixel
`(px, py)` with `px < 64`, `py < 32` is flipped if and only if there are `r < n` and
`b < 8` with bit `7-b` of `memory[I+r]` set, `px = (V[x]+b) mod 64` and
`py = V[y] + r + (V[x]+b) div 64`; every other pixel is unchanged.  The origin is not
reduced modulo 64 or 32, and a sprite bit past column 63 is drawn on a following row. -/
theorem C6_flipped_pixels (s : Chip8) (randNum x y n : Nat) (hpc : s.pc + 1 < 4096)
    (hx : x < 16) (hy : y < 16) (hn : n < 16)
    (hop : opAt s = 0xD000 + x * 256 + y * 16 + n)
    (hmem : ∀ r < n, s.I + r < 4096)
    (hin : ∀ r < n, ∀ b < 8, (s.memory (s.I + r)).testBit (7 - b) = true →
      s.V x + b + (s.V y + r) * 64 < 2048) :
    ∃ s', emulateCycle s randNum = some s' ∧
      ∀ px py, px < 64 → py < 32 →
        (s'.display (py * 64 + px) ≠ s.display (py * 64 + px) ↔
          ∃ r < n, ∃ b < 8, (s.memory (s.I + r)).testBit (7 - b) = true ∧
            px = (s.V x + b) % 64 ∧ py = s.V y + r + (s.V x + b) / 64) := by
  obtain ⟨s', hs, hflip, -⟩ := draw_cycle s randNum x y n hpc hx hy hn hop hmem hin
  refine ⟨s', hs, ?_⟩
  intro px py hpx hpy
  rw [hflip]
  constructor
  · rintro ⟨r, b, ⟨hr, hb, hbit⟩, he⟩
    exact ⟨r, hr, b, hb, hbit, by omega, by omega⟩
  · rintro ⟨r, hr, b, hb, hbit, h1, h2⟩
    exact ⟨r, b, ⟨hr, hb, hbit⟩, by omega⟩

/-- Claim C6 as amended at the sprite `0xFF` drawn at column 60 of row 0 on an empty
framebuffer: columns 60..63 of row 0 and columns 0..3 of row 1 are set, column 4 of row 1
is not. -/
theorem C6_flipped_pixels_witness :
    (wrapState.pc + 1 < 4096 ∧ opAt wrapState = 0xD000 + 0 * 256 + 1 * 16 + 1 ∧
      (∀ r < 1, wrapState.I + r < 4096) ∧
      (∀ r < 1, ∀ b < 8, (wrapState.memory (wrapState.I + r)).testBit (7 - b) = true →
        wrapState.V 0 + b + (wrapState.V 1 + r) * 64 < 2048)) ∧
    (∃ s', emulateCycle wrapState 0 = some s' ∧
      ∀ px py, px < 64 → py < 32 →
        (s'.display (py * 64 + px) ≠ wrapState.display (py * 64 + px) ↔
          ∃ r < 1, ∃ b < 8, (wrapState.memory (wrapState.I + r)).testBit (7 - b) = true ∧
            px = (wrapState.V 0 + b) % 64 ∧
            py = wrapState.V 1 + r + (wrapState.V 0 + b) / 64)) ∧
    (emulateCycle wrapState 0).map
      (fun t => (t.display 59, t.display 60, t.display 63, t.display 64, t.display 67,
        t.display 68)) = some (false, true, true, true, true, false) :=
  ⟨⟨by decide, by decide, by decide, by decide⟩,
   C6_flipped_pixels wrapState 0 0 1 1 (by decide) (by decide) (by decide)
     (by decide) (by decide) (by decide) (by decide),
   by decide⟩

/-- Claim C7 as stated fails on its own scenario (`2206` at `0x200`, `SP = 0`): the cycle
ends with `PC = 0x208`, `SP = 1`, `stack[0] = 0` and `stack[1] = 0x200`, not with
`PC = 0x206` and `stack[0] = 0x202`. -/
theorem C7_call_counterexample :
    callState.pc = 0x200 ∧ callState.sp = 0 ∧ opAt callState = 0x2206 ∧
    (emulateCycle callState 0).map (fun t => (t.pc, t.sp, t.stack 0, t.stack 1))
      = some (0x208, 1, 0, 0x200) ∧
    ¬ ∃ s', emulateCycle callState 0 = some s' ∧ s'.pc = 0x206 ∧ s'.sp = 1 ∧
      s'.stack 0 = 0x202 := by
  refine ⟨by decide, by decide, by decide, by decide, ?_⟩
  rintro ⟨s', h, hp, -, -⟩
  have h2 : (emulateCycle callState 0).map (fun t => t.pc) = some 0x208 := by decide
  rw [h] at h2
  simp [hp] at h2

/-- Claim C7 as amended, what 2nnn pushes: for every machine state with `SP < 15` and
`PC = p` (`p+1 < 4096`), one cycle on 2nnn returns a state in which `SP` has increased by
exactly 1 and the stack slot at the new `SP` holds `p`, the address of the call itself;
every other stack slot is unchanged. -/
theorem C7_call_pushes (s : Chip8) (randNum nnn : Nat) (hpc : s.pc + 1 < 4096)
    (hn : nnn < 4096) (hop : opAt s = 0x2000 + nnn) (hsp : s.sp < 15) :
    ∃ s', emulateCycle s randNum = some s' ∧ s'.sp = s.sp + 1 ∧
      s'.stack (s.sp + 1) = s.pc ∧ ∀ j, j ≠ s.sp + 1 → s'.stack j = s.stack j := by
  have h1 : (fetched s).currentOp &&& 0xF000 = 0x2000 := by
    rw [fetched_currentOp, hop, and_F000]; omega
  have hex := execute_2nnn (fetched s) randNum h1
  rw [case2_eq (fetched s) (by simpa using hsp)] at hex
  refine ⟨_, emulateCycle_next s _ randNum hpc hex, by simp, by simp, ?_⟩
  intro j hj
  simp [Function.update, hj]

/-- Claim C7 as amended at `2206` stored at `0x200` with `SP = 0`: `SP = 1` and
`stack[1] = 0x200` afterwards. -/
theorem C7_call_pushes_witness :
    (callState.pc + 1 < 4096 ∧ opAt callState = 0x2000 + 0x206 ∧ callState.sp < 15) ∧
    (∃ s', emulateCycle callState 0 = some s' ∧ s'.sp = callState.sp + 1 ∧
      s'.stack (callState.sp + 1) = callState.pc ∧
      ∀ j, j ≠ callState.sp + 1 → s'.stack j = callState.stack j) ∧
    (emulateCycle callState 0).map (fun t => (t.sp, t.stack 1)) = some (1, 0x200) :=
  ⟨⟨by decide, by decide, by decide⟩,
   C7_call_pushes callState 0 0x206 (by decide) (by decide) (by decide) (by decide),
   by decide⟩

/-- Claim C8, CALL then RET, evaluated on the code at its own scenario (`22 06` at `0x200`,
`00 EE` at `0x206`, `SP = 0`): the first cycle ends with `PC = 0x208`, so the second one
fetches `0000` at `0x208` instead of `00EE` at `0x206` and ends with `PC = 0x20A`, `SP = 1`,
not with `PC = 0x202`, `SP = 0`. -/
theorem C8_call_ret_not_round_trip :
    callState.pc = 0x200 ∧ callState.sp = 0 ∧ opAt callState = 0x2206 ∧
    callState.memory 0x206 = 0x00 ∧ callState.memory 0x207 = 0xEE ∧
    (emulateCycle callState 0).map (fun t => (t.pc, t.sp)) = some (0x208, 1) ∧
    ((emulateCycle callState 0).bind fun s1 => emulateCycle s1 0).map
      (fun t => (t.pc, t.sp)) = some (0x20A, 1) := by
  decide

/-- Claim C9, absolute jump (1nnn): for every machine state (with the opcode inside memory,
`PC+1 < 4096`) and every 12-bit `nnn`, zero and one included, one cycle on 1nnn returns a
state whose program counter equals `nnn`; memory is unchanged, so the next fetch assembles
its opcode from the bytes at `nnn` and `nnn+1`. -/
theorem C9_jump (s : Chip8) (randNum nnn : Nat) (hpc : s.pc + 1 < 4096) (hn : nnn < 4096)
    (hop : opAt s = 0x1000 + nnn) :
    ∃ s', emulateCycle s randNum = some s' ∧ s'.pc = nnn ∧ s'.memory = s.memory ∧
      opAt s' = ((s.memory nnn <<< 8) ||| s.memory (nnn + 1)) % 65536 := by
  have h1 : (fetched s).currentOp &&& 0xF000 = 0x1000 := by
    rw [fetched_currentOp, hop, and_F000]; omega
  have h2 : (fetched s).currentOp &&& 0x0FFF = nnn := by
    rw [fetched_currentOp, hop, and_0FFF]; omega
  have h3 : (sub16 nnn 2 + 2) % 65536 = nnn := by unfold sub16; omega
  have hex := execute_1nnn (fetched s) randNum h1
  rw [h2] at hex
  refine ⟨_, emulateCycle_next s _ randNum hpc hex, ?_, by simp, ?_⟩
  · simp [h3]
  · simp [opAt, h3]

/-- Claim C9 at `12 04 00 00 60 07` stored at `0x200`: `PC = 0x204` after one cycle, and
`V[0] = 0x07`, `PC = 0x206` after the second. -/
theorem C9_jump_witness :
    (jumpState.pc + 1 < 4096 ∧ opAt jumpState = 0x1000 + 0x204) ∧
    (∃ s', emulateCycle jumpState 0 = some s' ∧ s'.pc = 0x204 ∧
      s'.memory = jumpState.memory ∧
      opAt s' = ((jumpState.memory 0x204 <<< 8) ||| jumpState.memory (0x204 + 1)) % 65536) ∧
    ((emulateCycle jumpState 0).bind fun s1 => emulateCycle s1 0).map
      (fun s2 => (s2.V 0, s2.pc)) = some (0x07, 0x206) :=
  ⟨⟨by decide, by decide⟩,
   C9_jump jumpState 0 0x204 (by decide) (by decide) (by decide), by decide⟩

/-- Claim C10 as stated fails: with keys 3 and 5 pressed the lowest pressed index is 3, yet
one cycle on `F00A` leaves `V[0] = 5` (and `PC = 0x202`). -/
theorem C10_lowest_key_counterexample :
    (keysState keys35).keypad 3 = true ∧ (∀ j < 3, (keysState keys35).keypad j = false) ∧
    (emulateCycle (keysState keys35) 0).map (fun t => (t.V 0, t.pc)) = some (5, 0x202) := by
  decide

/-- Claim C10 as amended, wait-for-key (Fx0A): for every machine state with `PC = p`
(`p+1 < 4096`), one cycle on Fx0A returns a state with `PC = p` when no keypad entry is
pressed, and when at least one key is pressed returns a state in which `V[x]` is the highest
index in 0..15 whose key is pressed and `PC = p+2`. -/
theorem C10_key_wait (s : Chip8) (randNum x : Nat) (hpc : s.pc + 1 < 4096) (hx : x < 16)
    (hop : opAt s = 0xF00A + x * 256) :
    ((∀ i < 16, s.keypad i = false) →
      ∃ s', emulateCycle s randNum = some s' ∧ s'.pc = s.pc) ∧
    ((∃ i < 16, s.keypad i = true) →
      ∃ s', emulateCycle s randNum = some s' ∧ s'.V x < 16 ∧ s.keypad (s'.V x) = true ∧
        (∀ j < 16, s.keypad j = true → j ≤ s'.V x) ∧ s'.pc = s.pc + 2) := by
  have h1 : (fetched s).currentOp &&& 0xF000 = 0xF000 := by
    rw [fetched_currentOp, hop, and_F000]; omega
  have h2 : (fetched s).currentOp &&& 0x00FF = 0x0A := by
    rw [fetched_currentOp, hop, and_00FF]; omega
  have h3 : regXof (fetched s).currentOp = x := by
    rw [fetched_currentOp, hop, regXof_eq]; omega
  have hex := execute_F (fetched s) randNum h1
  rw [caseF_0A (fetched s) h2, h3, keyScan_loop] at hex
  constructor
  · intro hno
    have hn : lastPressed (fetched s).keypad 16 = none :=
      (lastPressed_none _ 16).mpr (by simpa using hno)
    rw [hn] at hex
    exact ⟨_, emulateCycle_ret s _ randNum hpc hex, by simp⟩
  · rintro ⟨i, hi, hki⟩
    cases hl : lastPressed (fetched s).keypad 16 with
    | none =>
      have := (lastPressed_none _ 16).mp hl i hi
      simp [hki] at this
    | some k =>
      obtain ⟨a, b, c⟩ := lastPressed_some _ 16 k hl
      rw [hl] at hex
      have ek : k % 256 = k := by omega
      have ep : (s.pc + 2) % 65536 = s.pc + 2 := by omega
      simp only [Option.some_bind] at hex
      refine ⟨_, emulateCycle_next s _ randNum hpc hex, ?_⟩
      simp only [fetched_keypad] at b c
      simp [setV, ek, ep, a, b]
      exact c

/-- Claim C10 as amended at `F00A` stored at `0x200` with only key 5 pressed: `V[0] = 5`
and `PC = 0x202`; with no key pressed `PC` stays `0x200`. -/
theorem C10_key_wait_witness :
    ((keysState key5).pc + 1 < 4096 ∧ opAt (keysState key5) = 0xF00A + 0 * 256) ∧
    (((∀ i < 16, (keysState key5).keypad i = false) →
      ∃ s', emulateCycle (keysState key5) 0 = some s' ∧ s'.pc = (keysState key5).pc) ∧
    ((∃ i < 16, (keysState key5).keypad i = true) →
      ∃ s', emulateCycle (keysState key5) 0 = some s' ∧ s'.V 0 < 16 ∧
        (keysState key5).keypad (s'.V 0) = true ∧
        (∀ j < 16, (keysState key5).keypad j = true → j ≤ s'.V 0) ∧
        s'.pc = (keysState key5).pc + 2)) ∧
    (emulateCycle (keysState key5) 0).map (fun t => (t.V 0, t.pc)) = some (5, 0x202) ∧
    (emulateCycle (keysState (fun _ => false)) 0).map (fun t => t.pc) = some 0x200 :=
  ⟨⟨by decide, by decide⟩,
   C10_key_wait (keysState key5) 0 0 (by decide) (by decide) (by decide),
   by decide, by decide⟩

/-- Claim C11 as stated fails: the word `0000` at `0x200` matches no pattern of the
identification table, yet one cycle ends with `PC = 0x202`; and `01E0` (a `0nE0` with
`n != 0`) clears the lit pixel 5 and sets the draw flag. -/
theorem C11_invalid_counterexample :
    invalidState.pc = 0x200 ∧ opAt invalidState = 0x0000 ∧
    (emulateCycle invalidState 0).map (fun t => t.pc) = some 0x202 ∧
    opAt looseClsState = 0x01E0 ∧ looseClsState.display 5 = true ∧
    (emulateCycle looseClsState 0).map (fun t => (t.pc, t.display 5, t.drawFlag))
      = some (0x202, false, true) := by
  decide

/-- Claim C11 as amended, opcodes that reach a `default` label of the switch: for every
machine state (with the opcode inside memory, `PC+1 < 4096`) whose word at PC has first
nibble 0 and low byte other than `E0`, `EE`, or is `8xy8`..`8xyD` or `8xyF`, or has first
nibble E and low byte other than `9E`, `A1`, or has first nibble F and low byte outside
`07 0A 15 18 1E 29 33 55 65`, one cycle returns a state with the registers, `I`, memory,
stack, `SP` and framebuffer unchanged and with `PC` advanced by 2. -/
theorem C11_default_skips (s : Chip8) (randNum : Nat) (hpc : s.pc + 1 < 4096)
    (hd : fallsToDefault (opAt s)) :
    ∃ s', emulateCycle s randNum = some s' ∧ s'.pc = s.pc + 2 ∧ s'.V = s.V ∧ s'.I = s.I ∧
      s'.memory = s.memory ∧ s'.stack = s.stack ∧ s'.sp = s.sp ∧ s'.display = s.display := by
  have hex := execute_default (fetched s) randNum (by simpa using hd)
  have ep : (s.pc + 2) % 65536 = s.pc + 2 := by omega
  exact ⟨_, emulateCycle_next s _ randNum hpc hex, by simp [ep], by simp, by simp, by simp,
    by simp, by simp, by simp⟩

/-- Claim C11 as amended at `8128` stored at `0x200` (an `8xy8`): `PC = 0x202` afterwards,
`V[1] = 7`, `VF = 1`, `I = 0x300` and `SP = 2` unchanged. -/
theorem C11_default_skips_witness :
    (unknownAluState.pc + 1 < 4096 ∧ fallsToDefault (opAt unknownAluState)) ∧
    (∃ s', emulateCycle unknownAluState 0 = some s' ∧ s'.pc = unknownAluState.pc + 2 ∧
      s'.V = unknownAluState.V ∧ s'.I = unknownAluState.I ∧
      s'.memory = unknownAluState.memory ∧ s'.stack = unknownAluState.stack ∧
      s'.sp = unknownAluState.sp ∧ s'.display = unknownAluState.display) ∧
    (emulateCycle unknownAluState 0).map (fun t => (t.pc, t.V 1, t.V 0xF, t.I, t.sp))
      = some (0x202, 7, 1, 0x300, 2) :=
  ⟨⟨by decide, Or.inr (Or.inl (by decide))⟩,
   C11_default_skips unknownAluState 0 (by decide) (Or.inr (Or.inl (by decide))),
   by decide⟩

/-- Claim C12, after CLS (00E0): for every machine state (with the opcode inside memory,
`PC+1 < 4096`), one cycle on `00E0` returns a state in which every one of the `64*32`
framebuffer pixels is 0 and the draw flag is true. -/
theorem C12_cls (s : Chip8) (randNum : Nat) (hpc : s.pc + 1 < 4096)
    (hop : opAt s = 0x00E0) :
    ∃ s', emulateCycle s randNum = some s' ∧ (∀ j, j < 64 * 32 → s'.display j = false) ∧
      s'.drawFlag = true := by
  have h1 : (fetched s).currentOp &&& 0xF000 = 0x0000 := by
    rw [fetched_currentOp, hop]; decide
  have h2 : (fetched s).currentOp &&& 0x00FF = 0x00E0 := by
    rw [fetched_currentOp, hop]; decide
  have hex := execute_0 (fetched s) randNum h1
  rw [case0_E0 (fetched s) h2] at hex
  exact ⟨_, emulateCycle_next s _ randNum hpc hex, by simp, by simp⟩

/-- Claim C12 at `00E0` stored at `0x200` over a fully lit framebuffer: pixels 0 and 2047
are 0 afterwards and the draw flag is true. -/
theorem C12_cls_witness :
    (clsState.pc + 1 < 4096 ∧ opAt clsState = 0x00E0 ∧ clsState.display 2047 = true) ∧
    (∃ s', emulateCycle clsState 0 = some s' ∧ (∀ j, j < 64 * 32 → s'.display j = false) ∧
      s'.drawFlag = true) ∧
    (emulateCycle clsState 0).map (fun t => (t.display 0, t.display 2047, t.drawFlag))
      = some (false, false, true) :=
  ⟨⟨by decide, by decide, by decide⟩, C12_cls clsState 0 (by decide) (by decide), by decide⟩

/-- Claim C13, drawing an empty sprite: for every machine state (with the opcode inside
memory, `PC+1 < 4096`), every registers `x`, `y` and every height `n` such that the sprite
bytes `memory[I+r]`, `r < n`, lie in memory and are all 0, one cycle on Dxyn returns a state
with every framebuffer pixel unchanged and `VF = 0`. -/
theorem C13_empty_sprite (s : Chip8) (randNum x y n : Nat) (hpc : s.pc + 1 < 4096)
    (hx : x < 16) (hy : y < 16) (hn : n < 16)
    (hop : opAt s = 0xD000 + x * 256 + y * 16 + n)
    (hmem : ∀ r < n, s.I + r < 4096) (hzero : ∀ r < n, s.memory (s.I + r) = 0) :
    ∃ s', emulateCycle s randNum = some s' ∧ (∀ j, s'.display j = s.display j) ∧
      s'.V 0xF = 0 := by
  have hbit : ∀ r < n, ∀ b, (s.memory (s.I + r)).testBit (7 - b) = false := by
    intro r hr b
    rw [hzero r hr]
    exact Nat.zero_testBit _
  obtain ⟨s', hs, hflip, -, hmiss, -⟩ := draw_cycle s randNum x y n hpc hx hy hn hop hmem
    (fun r hr b _ hb => by simp [hbit r hr b] at hb)
  refine ⟨s', hs, ?_, ?_⟩
  · intro j
    by_contra hne
    obtain ⟨r, b, ⟨hr, -, hb⟩, -⟩ := (hflip j).mp hne
    simp [hbit r hr b] at hb
  · apply hmiss
    rintro ⟨r, b, ⟨hr, -, hb⟩, -⟩
    simp [hbit r hr b] at hb

/-- Claim C13 at `D125` with five zero sprite bytes at `I = 0x300`, `VF = 1` beforehand and
every even pixel lit: the framebuffer is unchanged and `VF = 0`. -/
theorem C13_empty_sprite_witness :
    (emptySpriteState.pc + 1 < 4096 ∧
      opAt emptySpriteState = 0xD000 + 1 * 256 + 2 * 16 + 5 ∧
      (∀ r < 5, emptySpriteState.I + r < 4096) ∧
      (∀ r < 5, emptySpriteState.memory (emptySpriteState.I + r) = 0) ∧
      emptySpriteState.V 0xF = 1) ∧
    (∃ s', emulateCycle emptySpriteState 0 = some s' ∧
      (∀ j, s'.display j = emptySpriteState.display j) ∧ s'.V 0xF = 0) :=
  ⟨⟨by decide, by decide, by decide, by decide, by decide⟩,
   C13_empty_sprite emptySpriteState 0 1 2 5 (by decide) (by decide) (by decide) (by decide)
     (by decide) (by decide) (by decide)⟩

/-- Claim C14, ROM size limit of `load`, evaluated on the code: a ROM of exactly 3584 bytes
that opens and reads successfully is rejected (`load` returns false); in general `load`
returns true exactly when the length is below 3584, and it then copies byte `i` of the ROM
to `memory[0x200+i]`. -/
theorem C14_load_rejects_3584 :
    (load usedState (some (List.replicate 3584 0x12)) true 3584).map Prod.fst = some false ∧
    (∀ (s : Chip8) (rom : List Nat),
      (load s (some rom) true rom.length).map Prod.fst = some (decide (rom.length < 3584))) ∧
    (∀ (s : Chip8) (rom : List Nat), rom.length < 3584 →
      ∃ s', load s (some rom) true rom.length = some (true, s') ∧
        ∀ i < rom.length, s'.memory (0x200 + i) = rom.getD i 0 % 256) := by
  refine ⟨?_, ?_, fun s rom h => load_accepts s rom h⟩
  · have hl : (List.replicate 3584 0x12).length = 3584 := List.length_replicate _ _
    have h := load_rejects usedState (List.replicate 3584 0x12) (Nat.le_of_eq hl.symm)
    rw [hl] at h
    rw [h]
    rfl
  · intro s rom
    by_cases h : rom.length < 3584
    · obtain ⟨s', hs, -⟩ := load_accepts s rom h
      simp [hs, h]
    · simp [load_rejects s rom (by omega), h]

/-- Claim C15, reset postcondition of `initChip8`, evaluated on the code: from a state with
key 5 held and the draw flag set, `initChip8` leaves key 5 held and the draw flag set (it
assigns neither `keypad` nor `drawFlag`, for any state), while `PC = 0x200`, the fontset and
the zeroed fields are as claimed. -/
theorem C15_init_keeps_keypad :
    usedState.keypad 5 = true ∧ usedState.drawFlag = true ∧
    (initChip8 usedState).keypad 5 = true ∧ (initChip8 usedState).drawFlag = true ∧
    (∀ s : Chip8, (initChip8 s).keypad = s.keypad ∧ (initChip8 s).drawFlag = s.drawFlag) ∧
    (∀ s : Chip8, (initChip8 s).pc = 0x200 ∧ (initChip8 s).I = 0 ∧ (initChip8 s).sp = 0 ∧
      (initChip8 s).delay_timer = 0 ∧ (initChip8 s).sound_timer = 0 ∧
      (∀ i < 16, (initChip8 s).V i = 0 ∧ (initChip8 s).stack i = 0) ∧
      (∀ i < 64 * 32, (initChip8 s).display i = false) ∧
      (∀ i < 0x50, (initChip8 s).memory i = chip8_fontset.getD i 0) ∧
      (∀ i, 0x50 ≤ i → i < 4096 → (initChip8 s).memory i = 0)) := by
  refine ⟨by decide, by decide, by decide, by decide, fun s => ⟨rfl, rfl⟩, fun s => ?_⟩
  refine ⟨rfl, rfl, rfl, rfl, rfl, ?_, ?_, ?_, ?_⟩
  · intro i hi
    simp [initChip8, fill, hi]
  · intro i hi
    have : i < 2048 := by omega
    simp [initChip8, fill, this]
  · intro i hi
    have : i < 80 := by omega
    simp [initChip8, fill, this]
  · intro i h1 h2
    have : ¬ i < 80 := by omega
    simp [initChip8, fill, this, h2]

/-- Claim C16 as stated fails: `00EE` executed with `SP = 0` is not rejected, it leaves
`SP = 255` (and `PC = stack[0] + 2 = 2`); and `2206` executed with `SP = 15` indexes slot
16, outside `stack[16]`. -/
theorem C16_stack_counterexample :
    retEmptyState.sp = 0 ∧ opAt retEmptyState = 0x00EE ∧
    (emulateCycle retEmptyState 0).map (fun t => (t.sp, t.pc)) = some (255, 2) ∧
    callFullState.sp = 15 ∧ opAt callFullState = 0x2206 ∧
    emulateCycle callFullState 0 = none ∧
    wr 16 callFullState.stack (callFullState.sp + 1) callFullState.pc = none :=
  ⟨by decide, by decide, by decide, by decide, by decide,
   Option.isNone_iff_eq_none.mp (by decide), Option.isNone_iff_eq_none.mp (by decide)⟩

/-- Claim C16 as amended, stack pointer invariant without a trap: whenever one cycle
completes inside its arrays, an opcode other than 2nnn and 0nEE leaves `SP` and the stack
unchanged (at any `SP`); 2nnn executed with `SP <= 14` gives `SP+1` and writes only slot
`SP+1`, which receives `PC`; 0nEE executed with `1 <= SP <= 15` gives `SP-1`, leaves the
stack unchanged and reads `PC` from slot `SP`; so for every machine state with
`0 <= SP <= 16` the `SP` afterwards is again in `[0,16]`, unless the opcode is 0nEE with
`SP = 0`.  With the opcode inside memory (`PC+1 < 4096`) the cycle on 2nnn with `SP <= 14`
and on 0nEE with `1 <= SP <= 15` does complete. -/
theorem C16_sp_steps (s : Chip8) (randNum : Nat) :
    (∀ s', emulateCycle s randNum = some s' →
      (opAt s &&& 0xF000 ≠ 0x2000 →
        ¬ (opAt s &&& 0xF000 = 0x0000 ∧ opAt s &&& 0x00FF = 0x00EE) →
        s'.sp = s.sp ∧ s'.stack = s.stack) ∧
      (opAt s &&& 0xF000 = 0x2000 → s.sp ≤ 14 →
        s'.sp = s.sp + 1 ∧ s'.stack = Function.update s.stack (s.sp + 1) s.pc) ∧
      (opAt s &&& 0xF000 = 0x0000 ∧ opAt s &&& 0x00FF = 0x00EE → 1 ≤ s.sp → s.sp ≤ 15 →
        s'.sp = s.sp - 1 ∧ s'.stack = s.stack ∧ s'.pc = (s.stack s.sp + 2) % 65536) ∧
      (s.sp ≤ 16 →
        (opAt s &&& 0xF000 = 0x0000 ∧ opAt s &&& 0x00FF = 0x00EE → 1 ≤ s.sp) →
        s'.sp ≤ 16)) ∧
    (s.pc + 1 < 4096 → opAt s &&& 0xF000 = 0x2000 → s.sp ≤ 14 →
      ∃ s', emulateCycle s randNum = some s') ∧
    (s.pc + 1 < 4096 → (opAt s &&& 0xF000 = 0x0000 ∧ opAt s &&& 0x00FF = 0x00EE) →
      1 ≤ s.sp → s.sp ≤ 15 → ∃ s', emulateCycle s randNum = some s') := by
  have hcall : opAt s &&& 0xF000 = 0x2000 → s.sp ≤ 14 →
      execute (fetched s) randNum = some (Flow.next
        { fetched s with
          sp := s.sp + 1
          stack := Function.update s.stack (s.sp + 1) s.pc
          pc := opAt s &&& 0x0FFF }) := by
    intro c hs
    rw [execute_2nnn (fetched s) randNum (by simpa using c),
      case2_eq (fetched s) (by simp; omega)]
    rfl
  have hret : opAt s &&& 0xF000 = 0x0000 ∧ opAt s &&& 0x00FF = 0x00EE → s.sp ≤ 15 →
      execute (fetched s) randNum = some (Flow.next
        { fetched s with pc := s.stack s.sp, sp := (s.sp + 255) % 256 }) := by
    rintro ⟨c0, cE⟩ hs
    rw [execute_0 (fetched s) randNum (by simpa using c0),
      case0_EE (fetched s) (by simpa using cE) (by simp; omega)]
    rfl
  refine ⟨?_, ?_, ?_⟩
  · intro s' h
    obtain ⟨hpc, f, hf, rfl⟩ := emulateCycle_some s s' randNum h
    have hA : opAt s &&& 0xF000 = 0x2000 → s.sp ≤ 14 →
        f.finish.sp = s.sp + 1 ∧ f.finish.stack = Function.update s.stack (s.sp + 1) s.pc := by
      intro c hs
      have hf2 := hf
      rw [hcall c hs, Option.some.injEq] at hf2
      subst hf2
      simp [Flow.finish]
    have hB : opAt s &&& 0xF000 = 0x0000 ∧ opAt s &&& 0x00FF = 0x00EE → 1 ≤ s.sp →
        s.sp ≤ 15 →
        f.finish.sp = s.sp - 1 ∧ f.finish.stack = s.stack ∧
          f.finish.pc = (s.stack s.sp + 2) % 65536 := by
      intro c h1 h15
      have hf2 := hf
      rw [hret c h15, Option.some.injEq] at hf2
      subst hf2
      simp [Flow.finish]
      omega
    have hC : opAt s &&& 0xF000 ≠ 0x2000 →
        ¬ (opAt s &&& 0xF000 = 0x0000 ∧ opAt s &&& 0x00FF = 0x00EE) →
        f.finish.sp = s.sp ∧ f.finish.stack = s.stack := by
      intro c2 c0
      have := execute_stack (fetched s) randNum f hf (by simpa using c2) (by simpa using c0)
      simpa using this
    refine ⟨hC, hA, hB, ?_⟩
    intro h16 hne
    by_cases c2 : opAt s &&& 0xF000 = 0x2000
    · have hlt : ((fetched s).sp + 1) % 256 < 16 := by
        rw [execute_2nnn (fetched s) randNum (by simpa using c2)] at hf
        exact case2_some (fetched s) f hf
      simp only [fetched_sp] at hlt
      have := (hA c2 (by omega)).1
      omega
    · by_cases c0 : opAt s &&& 0xF000 = 0x0000 ∧ opAt s &&& 0x00FF = 0x00EE
      · have hlt : (fetched s).sp < 16 := by
          rw [execute_0 (fetched s) randNum (by simpa using c0.1)] at hf
          exact case0_EE_some (fetched s) f (by simpa using c0.2) hf
        simp only [fetched_sp] at hlt
        have := (hB c0 (hne c0) (by omega)).1
        omega
      · have := (hC c2 c0).1
        omega
  · intro hpc c hs
    exact ⟨_, emulateCycle_of_execute s randNum _ hpc (hcall c hs)⟩
  · intro hpc c h1 h15
    exact ⟨_, emulateCycle_of_execute s randNum _ hpc (hret c h15)⟩

/-- Claim C16 as amended on reset-like states: `2206` stored at `0x200` with `SP = 0` gives
`SP = 1` and `stack[1] = 0x200`; `00EE` with `SP = 15` and `stack[15] = 0x300` gives
`SP = 14` and `PC = 0x302`; `6107` with `SP = 16` leaves `SP = 16`. -/
theorem C16_sp_steps_witness :
    ((callState.pc + 1 < 4096 ∧ opAt callState &&& 0xF000 = 0x2000 ∧ callState.sp ≤ 14) ∧
      ∃ s', emulateCycle callState 0 = some s') ∧
    (∀ s', emulateCycle callState 0 = some s' →
      s'.sp = callState.sp + 1 ∧
      s'.stack = Function.update callState.stack (callState.sp + 1) callState.pc) ∧
    (emulateCycle callState 0).map (fun t => (t.sp, t.stack 1)) = some (1, 0x200) ∧
    (emulateCycle retTopState 0).map (fun t => (t.sp, t.pc)) = some (14, 0x302) ∧
    (emulateCycle loadAtFullState 0).map (fun t => (t.sp, t.V 1)) = some (16, 7) :=
  ⟨⟨⟨by decide, by decide, by decide⟩,
      (C16_sp_steps callState 0).2.1 (by decide) (by decide) (by decide)⟩,
   fun s' h => ((C16_sp_steps callState 0).1 s' h).2.1 (by decide) (by decide),
   by decide, by decide, by decide⟩

/-- Claim C17, memory accesses stay inside the 4096-byte memory, evaluated on the code: the
program `AFFF`, `F033` started at `0x200` with `V[0] = 234` sets `I = 0xFFF` in its first
cycle; its second cycle writes `memory[I]` and then indexes `memory[I+1] = memory[4096]`,
outside the array, where the claim says the index is `(I+1) mod 4096 = 0`.  For every
machine state the cycle on Fx33 stays inside memory exactly when `I+2 < 4096`: no index
is reduced modulo 4096. -/
theorem C17_access_past_memory :
    (emulateCycle pastMemoryState 0).map (fun t => (t.I, t.pc, opAt t, t.V 0))
      = some (0xFFF, 0x202, 0xF033, 234) ∧
    ((emulateCycle pastMemoryState 0).bind fun s1 => emulateCycle s1 0) = none ∧
    (0xFFF + 1) % 4096 = 0 ∧
    wr 4096 pastMemoryState.memory (0xFFF + 1) ((234 / 10) % 10) = none ∧
    (∀ (s : Chip8) (randNum x : Nat), s.pc + 1 < 4096 → x < 16 →
      opAt s = 0xF033 + x * 256 →
      ((∃ s', emulateCycle s randNum = some s') ↔ s.I + 2 < 4096)) := by
  refine ⟨by decide, Option.isNone_iff_eq_none.mp (by decide), by decide,
    Option.isNone_iff_eq_none.mp (by decide), ?_⟩
  intro s randNum x hpc hx hop
  have h1 : (fetched s).currentOp &&& 0xF000 = 0xF000 := by
    rw [fetched_currentOp, hop, and_F000]; omega
  have h2 : (fetched s).currentOp &&& 0x00FF = 0x33 := by
    rw [fetched_currentOp, hop, and_00FF]; omega
  constructor
  · rintro ⟨s', h⟩
    obtain ⟨-, f, hf, -⟩ := emulateCycle_some s s' randNum h
    rw [execute_F (fetched s) randNum h1] at hf
    have := caseF_33_some (fetched s) f h2 hf
    simpa using this
  · intro hI
    have hex := execute_F (fetched s) randNum h1
    rw [caseF_33 (fetched s) h2 (by simpa using hI)] at hex
    exact ⟨_, emulateCycle_next s _ randNum hpc hex⟩

/-- Claim C18, random instruction (Cxkk), evaluated on the code: on `C1FF` with the random
byte `0xAB` the cycle leaves `V[1] = 0` unchanged and writes `0xAB & 0xFF` into `V[0]`,
because the register index is `currentOp & 0x0F00` stored in a byte, which is 0 for every
opcode. -/
theorem C18_rnd_writes_V0 :
    opAt rndState = 0xC1FF ∧ rndState.V 0 = 0 ∧ rndState.V 1 = 0 ∧
    (emulateCycle rndState 0xAB).map (fun t => (t.V 0, t.V 1)) = some (0xAB, 0) ∧
    (∀ op : Nat, (op &&& 0x0F00) % 256 = 0) := by
  refine ⟨by decide, by decide, by decide, by decide, ?_⟩
  intro op
  rw [and_0F00]
  omega

/-- Claim C19 as stated fails: `1201` stored at the even address `0x200` leaves
`PC = 0x201`, which is odd. -/
theorem C19_odd_jump_counterexample :
    oddJumpState.pc % 2 = 0 ∧ opAt oddJumpState = 0x1201 ∧
    (emulateCycle oddJumpState 0).map (fun t => (t.pc, t.pc % 2)) = some (0x201, 1) := by
  decide

/-- Claim C19 as amended, PC parity: for every machine state whose PC is even, whenever one
cycle completes inside its arrays the PC afterwards is even for every opcode other than
0nEE, 1nnn, 2nnn and Bnnn; after 1nnn and 2nnn it has the parity of `nnn`, after Bnnn the
parity of `nnn + V[0]`, after 0nEE the parity of the stack entry at `SP`.  With the opcode
inside memory (`PC+1 < 4096`) the cycle does complete for the opcodes 3xkk to 9xy0, Annn and
Cxkk, which index no array. -/
theorem C19_pc_parity (s : Chip8) (randNum : Nat) (heven : s.pc % 2 = 0) :
    (∀ s', emulateCycle s randNum = some s' →
      (¬ transfersControl (opAt s) → s'.pc % 2 = 0) ∧
      (opAt s &&& 0xF000 = 0x1000 → s'.pc % 2 = (opAt s &&& 0x0FFF) % 2) ∧
      (opAt s &&& 0xF000 = 0x2000 → s'.pc % 2 = (opAt s &&& 0x0FFF) % 2) ∧
      (opAt s &&& 0xF000 = 0xB000 → s'.pc % 2 = ((opAt s &&& 0x0FFF) + s.V 0) % 2) ∧
      (opAt s &&& 0xF000 = 0x0000 ∧ opAt s &&& 0x00FF = 0x00EE →
        s'.pc % 2 = s.stack s.sp % 2)) ∧
    (s.pc + 1 < 4096 → ¬ transfersControl (opAt s) →
      opAt s &&& 0xF000 ≠ 0x0000 → opAt s &&& 0xF000 ≠ 0xD000 →
      opAt s &&& 0xF000 ≠ 0xE000 → opAt s &&& 0xF000 ≠ 0xF000 →
      ∃ s', emulateCycle s randNum = some s' ∧ s'.pc % 2 = 0) := by
  have hplain : ∀ s', emulateCycle s randNum = some s' → ¬ transfersControl (opAt s) →
      s'.pc % 2 = 0 := by
    intro s' h hn
    obtain ⟨hpc, f, hf, rfl⟩ := emulateCycle_some s s' randNum h
    have hp := execute_plain (fetched s) randNum f hf (by simpa using hn)
    have h3 := hp.2.2
    simp only [fetched_pc] at h3
    rcases finish_pc f with e | e <;> rcases h3 with e3 | e3 <;> rw [e, e3] <;> omega
  constructor
  · intro s' h
    refine ⟨hplain s' h, ?_, ?_, ?_, ?_⟩
    · intro c
      obtain ⟨hpc, f, hf, rfl⟩ := emulateCycle_some s s' randNum h
      rw [execute_1nnn (fetched s) randNum (by simpa using c), Option.some.injEq] at hf
      subst hf
      have hlt : opAt s &&& 0x0FFF < 4096 := by rw [and_0FFF]; omega
      simp only [Flow.finish, afterSwitch_pc, fetched_currentOp, sub16]
      omega
    · intro c
      obtain ⟨hpc, f, hf, rfl⟩ := emulateCycle_some s s' randNum h
      rw [execute_2nnn (fetched s) randNum (by simpa using c)] at hf
      simp only [case2] at hf
      obtain ⟨st1, -, h2⟩ := Option.bind_eq_some.mp hf
      simp only [Option.some.injEq] at h2
      subst h2
      have hlt : opAt s &&& 0x0FFF < 4096 := by rw [and_0FFF]; omega
      simp only [Flow.finish, afterSwitch_pc, fetched_currentOp]
      omega
    · intro c
      obtain ⟨hpc, f, hf, rfl⟩ := emulateCycle_some s s' randNum h
      rw [execute_Bnnn (fetched s) randNum (by simpa using c), Option.some.injEq] at hf
      subst hf
      simp only [Flow.finish, afterSwitch_pc, fetched_currentOp, fetched_V, sub16]
      omega
    · rintro ⟨c0, cE⟩
      obtain ⟨hpc, f, hf, rfl⟩ := emulateCycle_some s s' randNum h
      rw [execute_0 (fetched s) randNum (by simpa using c0)] at hf
      simp only [case0, fetched_currentOp, cE, if_true] at hf
      obtain ⟨top, htop, h2⟩ := Option.bind_eq_some.mp hf
      simp only [Option.some.injEq] at h2
      subst h2
      simp only [rd, fetched_stack, fetched_sp] at htop
      split_ifs at htop
      simp only [Option.some.injEq] at htop
      subst htop
      simp only [Flow.finish, afterSwitch_pc]
      omega
  · intro hpc hn c0 cD cE cF
    have hex : ∃ f, execute (fetched s) randNum = some f := by
      simp only [transfersControl, not_or] at hn
      obtain ⟨-, n1, n2, nB⟩ := hn
      rcases family_cases (fetched s).currentOp with c | c | c | c | c | c | c | c | c | c |
        c | c | c | c | c | c
      · exact absurd (by simpa using c) c0
      · exact absurd (by simpa using c) n1
      · exact absurd (by simpa using c) n2
      · exact ⟨_, execute_3xkk _ randNum c⟩
      · exact ⟨_, execute_4xkk _ randNum c⟩
      · exact ⟨_, execute_5xy0 _ randNum c⟩
      · exact ⟨_, execute_6xkk _ randNum c⟩
      · exact ⟨_, execute_7xkk _ randNum c⟩
      · exact ⟨_, execute_8 _ randNum c⟩
      · exact ⟨_, execute_9xy0 _ randNum c⟩
      · exact ⟨_, execute_Annn _ randNum c⟩
      · exact absurd (by simpa using c) nB
      · exact ⟨_, execute_Cxkk _ randNum c⟩
      · exact absurd (by simpa using c) cD
      · exact absurd (by simpa using c) cE
      · exact absurd (by simpa using c) cF
    obtain ⟨f, hf⟩ := hex
    have h := emulateCycle_of_execute s randNum f hpc hf
    exact ⟨_, h, hplain _ h hn⟩

/-- Claim C19 as amended at `3007` stored at `0x200` with `V[0] = 7`: the skip is taken and
`PC = 0x204`. -/
theorem C19_pc_parity_witness :
    skipState.pc % 2 = 0 ∧
    ((∀ s', emulateCycle skipState 0 = some s' →
      (¬ transfersControl (opAt skipState) → s'.pc % 2 = 0) ∧
      (opAt skipState &&& 0xF000 = 0x1000 → s'.pc % 2 = (opAt skipState &&& 0x0FFF) % 2) ∧
      (opAt skipState &&& 0xF000 = 0x2000 → s'.pc % 2 = (opAt skipState &&& 0x0FFF) % 2) ∧
      (opAt skipState &&& 0xF000 = 0xB000 →
        s'.pc % 2 = ((opAt skipState &&& 0x0FFF) + skipState.V 0) % 2) ∧
      (opAt skipState &&& 0xF000 = 0x0000 ∧ opAt skipState &&& 0x00FF = 0x00EE →
        s'.pc % 2 = skipState.stack skipState.sp % 2)) ∧
    (skipState.pc + 1 < 4096 → ¬ transfersControl (opAt skipState) →
      opAt skipState &&& 0xF000 ≠ 0x0000 → opAt skipState &&& 0xF000 ≠ 0xD000 →
      opAt skipState &&& 0xF000 ≠ 0xE000 → opAt skipState &&& 0xF000 ≠ 0xF000 →
      ∃ s', emulateCycle skipState 0 = some s' ∧ s'.pc % 2 = 0)) ∧
    (emulateCycle skipState 0).map (fun t => t.pc) = some 0x204 :=
  ⟨by decide, C19_pc_parity skipState 0 (by decide), by decide⟩

/-- Claim C20, timers during a blocked key wait, evaluated on the code: on `F00A` with no
key pressed, `delay_timer = 5` and `sound_timer = 3`, the cycle returns before the timer
update and leaves `delay_timer = 5`, `sound_timer = 3` (and `PC = 0x200`). -/
theorem C20_blocked_wait_stops_timers :
    opAt blockedState = 0xF00A ∧ (∀ i < 16, blockedState.keypad i = false) ∧
    blockedState.delay_timer = 5 ∧ blockedState.sound_timer = 3 ∧
    (emulateCycle blockedState 0).map (fun t => (t.pc, t.delay_timer, t.sound_timer))
      = some (0x200, 5, 3) := by
  decide

/-- Claim C21, frame of a completed key wait (Fx0A), evaluated on the code: on `F00A` with
only key 5 pressed, `delay_timer = 9` and `sound_timer = 3`, the cycle ends with `V[0] = 5`,
`PC = 0x202`, `sound_timer = 2` and `delay_timer = 4`, not `8`; with `delay_timer = 0`
beforehand it ends with `delay_timer = 4`, not `0`.  Case `0x0A` has no `break` and runs on
into `delay_timer = V[x]` of case `0x15`: for every machine state with a key pressed the
delay timer afterwards is `V[x] - 1` whatever it was before, while the sound timer is
decremented and `I`, memory, stack, `SP`, framebuffer and the registers other than `V[x]`
are unchanged. -/
theorem C21_key_wait_loads_delay_timer :
    opAt keyWaitState = 0xF00A ∧ keyWaitState.keypad 5 = true ∧
    keyWaitState.delay_timer = 9 ∧ keyWaitState.sound_timer = 3 ∧
    (emulateCycle keyWaitState 0).map
      (fun t => (t.V 0, t.pc, t.delay_timer, t.sound_timer)) = some (5, 0x202, 4, 2) ∧
    (keysState key5).delay_timer = 0 ∧
    (emulateCycle (keysState key5) 0).map (fun t => (t.V 0, t.delay_timer)) = some (5, 4) ∧
    (∀ (s : Chip8) (randNum x : Nat), s.pc + 1 < 4096 → x < 16 →
      opAt s = 0xF00A + x * 256 → (∃ i < 16, s.keypad i = true) →
      ∃ s', emulateCycle s randNum = some s' ∧
        s'.delay_timer = s'.V x - 1 ∧ s'.sound_timer = s.sound_timer - 1 ∧
        s'.I = s.I ∧ s'.memory = s.memory ∧ s'.stack = s.stack ∧ s'.sp = s.sp ∧
        s'.display = s.display ∧ ∀ i, i ≠ x → s'.V i = s.V i) := by
  refine ⟨by decide, by decide, by decide, by decide, by decide, by decide, by decide, ?_⟩
  intro s randNum x hpc hx hop hkey
  obtain ⟨i, hi, hki⟩ := hkey
  have h1 : (fetched s).currentOp &&& 0xF000 = 0xF000 := by
    rw [fetched_currentOp, hop, and_F000]; omega
  have h2 : (fetched s).currentOp &&& 0x00FF = 0x0A := by
    rw [fetched_currentOp, hop, and_00FF]; omega
  have h3 : regXof (fetched s).currentOp = x := by
    rw [fetched_currentOp, hop, regXof_eq]; omega
  have hex := execute_F (fetched s) randNum h1
  rw [caseF_0A (fetched s) h2, h3, keyScan_loop] at hex
  cases hl : lastPressed (fetched s).keypad 16 with
  | none =>
    have := (lastPressed_none _ 16).mp hl i hi
    simp [hki] at this
  | some k =>
    rw [hl] at hex
    simp only [Option.some_bind] at hex
    rw [if_neg (by decide)] at hex
    refine ⟨_, emulateCycle_next s _ randNum hpc hex, ?_⟩
    refine ⟨by simp, by simp [setV], by simp [setV], by simp [setV], by simp [setV],
      by simp [setV], by simp [setV], ?_⟩
    intro j hj
    simp [setV, Function.update_noteq hj]

end Chip8Emu
